import Mathlib

/-!
Verification of the schema-driven binding generator in `build.py`.

The Python source manipulates strings, ordered dicts (insertion-ordered
association lists) and raises exceptions.  The shallow embedding below
models:
  * Python strings as Lean `String` (a wrapped `List Char`), with the
    Python string methods (`replace`, `strip`, `split`, `startswith`,
    `endswith`, slicing, `lower`) reimplemented over the char list so
    that every definition is executable and kernel-reducible;
  * ordered dicts as association lists `List (String × _)` (first match
    wins, insertion order preserved);
  * fallible code as `Except String _`; a Python `print(msg)` that is
    immediately followed by an unavoidable crash (e.g. subscripting
    `None`) is modelled as `Except.error msg`.
-/

set_option maxHeartbeats 1000000

namespace Build

/-- The whitespace characters stripped by Python `str.strip()` (ASCII part). -/
def pyIsSpace (c : Char) : Bool :=
  c = ' ' || c = '\t' || c = '\n' || c = '\x0d' || c = '\x0b' || c = '\x0c'

/-- Python `str.replace` on char lists: replace every non-overlapping
occurrence of `pat` (scanning left to right, the replacement text is not
rescanned).  `fuel` is a step bound used only to make the recursion
structural; every step consumes at least one character of `s`, so with
`fuel = s.length` the bound is never hit for a nonempty `pat` (the
generator only replaces nonempty literals). -/
def replaceFuel (pat rep : List Char) : Nat → List Char → List Char
  | 0, s => s
  | fuel + 1, s =>
    match s with
    | [] => []
    | c :: rest =>
      if pat.isPrefixOf (c :: rest) && !pat.isEmpty then
        rep ++ replaceFuel pat rep fuel ((c :: rest).drop pat.length)
      else
        c :: replaceFuel pat rep fuel rest

/-- Python `str.strip()` on char lists. -/
def trimL (s : List Char) : List Char :=
  ((s.dropWhile pyIsSpace).reverse.dropWhile pyIsSpace).reverse

/-- Python `str.split(";")` on char lists — the only separator the
embedded code ever splits on is the single character `;`, so the split is
specialised to it (empty chunks are kept, as in Python). -/
def splitSemiL : List Char → List (List Char)
  | [] => [[]]
  | c :: rest =>
    if c = ';' then [] :: splitSemiL rest
    else
      match splitSemiL rest with
      | chunk :: more => (c :: chunk) :: more
      | [] => [[c]]

/-- Python `str.replace`. -/
def pyReplace (s pat rep : String) : String :=
  ⟨replaceFuel pat.data rep.data s.data.length s.data⟩

/-- Python `str.strip()`. -/
def pyTrim (s : String) : String := ⟨trimL s.data⟩

/-- Python `str.startswith`. -/
def pyStartsWith (s pre : String) : Bool := pre.data.isPrefixOf s.data

/-- Python `str.endswith`. -/
def pyEndsWith (s suf : String) : Bool := suf.data.isSuffixOf s.data

/-- Python slicing `s[n:]`. -/
def pyDrop (s : String) (n : Nat) : String := ⟨s.data.drop n⟩

/-- Python slicing `s[:-n]` (empty result when `n ≥ len(s)`). -/
def pyDropRight (s : String) (n : Nat) : String := ⟨s.data.take (s.data.length - n)⟩

/-- Python `str.split(";")`. -/
def pySplitSemi (s : String) : List String := (splitSemiL s.data).map (⟨·⟩)

/-- Python `str.lower()` (ASCII). -/
def pyLower (s : String) : String := ⟨s.data.map Char.toLower⟩

/-- Python `len` of a string. -/
def pyLen (s : String) : Nat := s.data.length

/-- Boolean membership of a string in a string list (Python `in`). -/
def memb (x : String) (l : List String) : Bool := l.any (fun y => x = y)

/-- `basic_types` from build.py: the fixed closed set of primitive names. -/
def basic_types : List String :=
  [ "bool", "f32", "f64", "fn", "i128", "i16",
    "i32", "i64", "i8", "isize", "slice", "u128", "u16",
    "u32", "u64", "u8", "()", "usize", "c_void" ]

/-- The global `prefix = "Az"` of build.py. -/
def azPfx : String := "Az"

/-- `get_stripped_arg` from build.py: remove every occurrence of the
ownership markers (in source order: `&`, `&mut`, `*const`, `*const`,
`*mut`) and strip whitespace. -/
def get_stripped_arg (arg : String) : String :=
  pyTrim (pyReplace (pyReplace (pyReplace (pyReplace (pyReplace arg "&" "") "&mut" "")
    "*const" "") "*const" "") "*mut" "")

/-- `is_primitive_arg` from build.py. -/
def is_primitive_arg (arg : String) : Bool := memb (get_stripped_arg arg) basic_types

/-- `analyze_type` from build.py.  Returns `[starts, arg_type, ends]`;
`none` models the `IndexError` that Python raises at
`arg_type_array[1]` when the bracketed core contains no `;`. -/
def analyze_type (arg : String) : Option (String × String × String) :=
  let p :=
    if pyStartsWith arg "&mut" then ("&mut ", pyReplace arg "&mut" "")
    else if pyStartsWith arg "&" then ("&", pyReplace arg "&" "")
    else if pyStartsWith arg "*const" then ("*const ", pyReplace arg "*const" "")
    else if pyStartsWith arg "*mut" then ("*mut ", pyReplace arg "*mut" "")
    else ("", arg)
  let argType := pyTrim p.2
  if pyStartsWith argType "[" && pyEndsWith argType "]" then
    match pySplitSemi (pyDrop argType 1) with
    | t :: n :: _ => some (p.1 ++ "[", t, ";" ++ n)
    | _ => none
  else
    some (p.1, argType, "")

/-!  ## Data model

Only the keys that the embedded functions consult are modelled.
A Python dict value that is itself a dict and is only ever tested for
presence and truthiness (`"callback_typedef" in c.keys()` /
`len(c["callback_typedef"].keys()) > 0`) is modelled by the number of its
keys. -/

/-- A class entry of the api schema (`myapi_data[module]["classes"][name]`).
Fields/variants are `(name, optional "type" string)` pairs. -/
structure ClassDef where
  struct_fields : Option (List (String × Option String)) := none
  enum_fields : Option (List (String × Option String)) := none
  callback_typedef : Option Nat := none
  deriving DecidableEq

/-- One version of the api: ordered map module name → ordered map of classes. -/
abbrev ApiData := List (String × List (String × ClassDef))

/-- First-match association-list lookup (Python dict access). -/
def lookupA {α : Type} : List (String × α) → String → Option α
  | [], _ => none
  | (k, v) :: rest, key => if k = key then some v else lookupA rest key

/-- `search_for_class_by_class_name` from build.py: scan modules in order,
classes in order, return the first `[module, classname]` match. -/
def search_for_class_by_class_name (api : ApiData) (searched : String) :
    Option (String × String) :=
  match api with
  | [] => none
  | (mn, m) :: rest =>
    match searchClasses m searched with
    | some cn => some (mn, cn)
    | none => search_for_class_by_class_name rest searched
where
  /-- inner loop over one module's classes -/
  searchClasses : List (String × ClassDef) → String → Option String
    | [], _ => none
    | (cn, _) :: rest, searched => if cn = searched then some cn else searchClasses rest searched

/-- `get_class` from build.py. -/
def get_class (api : ApiData) (mname cname : String) : Option ClassDef :=
  match lookupA api mname with
  | none => none
  | some m => lookupA m cname

/-- `class_is_typedef` from build.py: key presence only. -/
def class_is_typedef (c : ClassDef) : Bool := c.callback_typedef.isSome

/-- The truthiness test `"callback_typedef" in c.keys() and c["callback_typedef"]`
(generate_structs): present and nonempty. -/
def classdef_callback_truthy (c : ClassDef) : Bool :=
  match c.callback_typedef with
  | some n => decide (0 < n)
  | none => false

/-- An entry of the `structs_map` built by `generate_rust_dll`
(keys: callback_typedef / struct / enum / external / clone /
is_boxed_object / custom_destructor / derive). -/
structure StructEntry where
  callback_typedef : Option Nat := none
  struct : Option (List (String × Option String)) := none
  enum : Option (List (String × Option String)) := none
  external : Option String := none
  clone : Option Bool := none
  is_boxed_object : Bool := false
  custom_destructor : Bool := false
  derive : List String := []
  deriving DecidableEq

/-- The test `"callback_typedef" in clazz.keys() and (len(clazz["callback_typedef"].keys()) > 0)`
used by `sort_structs_map` and `generate_structs`. -/
def entry_is_callback_typedef (e : StructEntry) : Bool :=
  match e.callback_typedef with
  | some n => decide (0 < n)
  | none => false

/-!  ## Dependency sorter (`sort_structs_map`, build.py 674-800) -/

/-- The fixed forward-declaration allowlist (`forward_delcarations`,
source spelling kept). -/
def forward_delcarations : List (String × String) :=
  [("AzDomVec", "Dom"), ("AzXmlNodeVec", "XmlNode"), ("AzMenuItemVec", "MenuItem")]

/-- `extra_forward_delcarations` from build.py. -/
def extra_forward_delcarations : List (String × String × String) :=
  [("AzDomVec", "struct", "AzDom"),
   ("AzMenuItemVec", "struct", "AzMenuItem"),
   ("AzXmlNodeVec", "struct", "AzXmlNode")]

/-- Pass-1 field scan of `sort_structs_map` (build.py 706-719): decide
whether a struct can be inserted immediately.  `classInFwd` is
`forward_delcarations[class_name]` when the class is allowlisted.
Errors model the Python exceptions (missing `"type"`; `IndexError`
inside `analyze_type`; the print-then-`TypeError` crash when a field
type has no class). -/
def pass1_struct_fields (api : ApiData) (class_name : String) (classInFwd : Option String) :
    List (String × Option String) → Bool → Except String Bool
  | [], flag => .ok flag
  | (field_name, fty) :: rest, flag =>
    match fty with
    | none => .error ("missing type field in " ++ class_name ++ " " ++ field_name)
    | some ty =>
      match analyze_type ty with
      | none => .error "IndexError: list index out of range"
      | some (_, base, _) =>
        if is_primitive_arg base then pass1_struct_fields api class_name classInFwd rest flag
        else
          match search_for_class_by_class_name api base with
          | none => .error ("struct " ++ base ++ " not found")
          | some (m, cn) =>
            match get_class api m cn with
            | none => .error "KeyError"
            | some fc =>
              if !(decide (classInFwd = some base)) && !(class_is_typedef fc) then
                pass1_struct_fields api class_name classInFwd rest false
              else
                pass1_struct_fields api class_name classInFwd rest flag

/-- Pass-1 variant scan of `sort_structs_map` (build.py 721-733);
variants without a payload type are skipped. -/
def pass1_enum_variants (api : ApiData) (class_name : String) (classInFwd : Option String) :
    List (String × Option String) → Bool → Except String Bool
  | [], flag => .ok flag
  | (_, vty) :: rest, flag =>
    match vty with
    | none => pass1_enum_variants api class_name classInFwd rest flag
    | some ty =>
      match analyze_type ty with
      | none => .error "IndexError: list index out of range"
      | some (_, base, _) =>
        if is_primitive_arg base then pass1_enum_variants api class_name classInFwd rest flag
        else
          match search_for_class_by_class_name api base with
          | none => .error ("sort structs map: " ++ class_name ++ " variant " ++ base ++ " not found")
          | some (m, cn) =>
            match get_class api m cn with
            | none => .error "KeyError"
            | some fc =>
              if !(decide (classInFwd = some base)) && !(class_is_typedef fc) then
                pass1_enum_variants api class_name classInFwd rest false
              else
                pass1_enum_variants api class_name classInFwd rest flag

/-- Pass-1 per-entry decision (build.py 696-735). -/
def pass1_should_insert (api : ApiData) (class_name : String) (clazz : StructEntry) :
    Except String Bool :=
  let classInFwd := lookupA forward_delcarations class_name
  if entry_is_callback_typedef clazz then .ok true
  else
    match clazz.struct with
    | some fields => pass1_struct_fields api class_name classInFwd fields true
    | none =>
      match clazz.enum with
      | some variants => pass1_enum_variants api class_name classInFwd variants true
      | none => .error ("sort_structs_map: not enum nor struct nor typedef" ++ class_name)

/-- Pass 1 of `sort_structs_map` (build.py 694-740): partition the map
into immediately sorted entries and `classes_not_found`, preserving
order and appending as the Python loop does. -/
def pass1_run (api : ApiData) :
    List (String × StructEntry) → List (String × StructEntry) → List (String × StructEntry) →
    Except String (List (String × StructEntry) × List (String × StructEntry))
  | sorted, notFound, [] => .ok (sorted, notFound)
  | sorted, notFound, (n, c) :: rest =>
    match pass1_should_insert api n c with
    | .error e => .error e
    | .ok true => pass1_run api (sorted ++ [(n, c)]) notFound rest
    | .ok false => pass1_run api sorted (notFound ++ [(n, c)]) rest

/-- Sweep-loop field scan (build.py 757-768): like pass 1 but a
non-exempt dependency only blocks insertion when `"Az" ++ base` is not
yet a key of the sorted map.  A missing `"type"` key or an unresolvable
name crashes Python here without a dedicated message. -/
def sweep_struct_fields (api : ApiData) (sortedKeys : List String) (classInFwd : Option String) :
    List (String × Option String) → Bool → Except String Bool
  | [], flag => .ok flag
  | (_, fty) :: rest, flag =>
    match fty with
    | none => .error "KeyError: type"
    | some ty =>
      match analyze_type ty with
      | none => .error "IndexError: list index out of range"
      | some (_, base, _) =>
        if is_primitive_arg base then sweep_struct_fields api sortedKeys classInFwd rest flag
        else
          match search_for_class_by_class_name api base with
          | none => .error "TypeError: NoneType object is not subscriptable"
          | some (m, cn) =>
            match get_class api m cn with
            | none => .error "KeyError"
            | some fc =>
              if !(decide (classInFwd = some base)) && !(class_is_typedef fc) then
                if memb (azPfx ++ base) sortedKeys then
                  sweep_struct_fields api sortedKeys classInFwd rest flag
                else
                  sweep_struct_fields api sortedKeys classInFwd rest false
              else
                sweep_struct_fields api sortedKeys classInFwd rest flag

/-- Sweep-loop variant scan (build.py 770-782). -/
def sweep_enum_variants (api : ApiData) (sortedKeys : List String) (classInFwd : Option String) :
    List (String × Option String) → Bool → Except String Bool
  | [], flag => .ok flag
  | (_, vty) :: rest, flag =>
    match vty with
    | none => sweep_enum_variants api sortedKeys classInFwd rest flag
    | some ty =>
      match analyze_type ty with
      | none => .error "IndexError: list index out of range"
      | some (_, base, _) =>
        if is_primitive_arg base then sweep_enum_variants api sortedKeys classInFwd rest flag
        else
          match search_for_class_by_class_name api base with
          | none => .error "TypeError: NoneType object is not subscriptable"
          | some (m, cn) =>
            match get_class api m cn with
            | none => .error "KeyError"
            | some fc =>
              if !(decide (classInFwd = some base)) && !(class_is_typedef fc) then
                if memb (azPfx ++ base) sortedKeys then
                  sweep_enum_variants api sortedKeys classInFwd rest flag
                else
                  sweep_enum_variants api sortedKeys classInFwd rest false
              else
                sweep_enum_variants api sortedKeys classInFwd rest flag

/-- Sweep-loop per-entry decision (build.py 750-784), checked against the
keys of the sorted map accumulated so far. -/
def sweep_should_insert (api : ApiData) (sorted : List (String × StructEntry))
    (class_name : String) (clazz : StructEntry) : Except String Bool :=
  let classInFwd := lookupA forward_delcarations class_name
  if entry_is_callback_typedef clazz then .ok true
  else
    match clazz.struct with
    | some fields => sweep_struct_fields api (sorted.map Prod.fst) classInFwd fields true
    | none =>
      match clazz.enum with
      | some variants => sweep_enum_variants api (sorted.map Prod.fst) classInFwd variants true
      | none => .error ("sort_structs_map: not enum nor struct " ++ class_name)

/-- One sweep over `classes_not_found` (the inner `for` of build.py
749-789).  The sorted map grows in place during the sweep, exactly as the
Python loop mutates `sorted_class_map` while iterating. -/
def sweep_pass (api : ApiData) :
    List (String × StructEntry) → List (String × StructEntry) → List (String × StructEntry) →
    Except String (List (String × StructEntry) × List (String × StructEntry))
  | sorted, current, [] => .ok (sorted, current)
  | sorted, current, (n, c) :: rest =>
    match sweep_should_insert api sorted n c with
    | .error e => .error e
    | .ok true => sweep_pass api (sorted ++ [(n, c)]) current rest
    | .ok false => sweep_pass api sorted (current ++ [(n, c)]) rest

/-- Comma-join used to render the unresolved key list. -/
def joinComma : List String → String
  | [] => ""
  | [x] => x
  | x :: xs => x ++ ", " ++ joinComma xs

/-- The message of the `iteration_count > 500` exception (build.py 798),
listing the declarations that remain unplaced. -/
def unresolved_msg (remaining : List (String × StructEntry)) : String :=
  "infinite recursion detected in sort_structs_map: " ++ Nat.repr remaining.length ++
    " unresolved structs = odict_keys([" ++ joinComma (remaining.map Prod.fst) ++ "])\r\n"

/-- The `while` loop of build.py 745-798.  `fuel` counts the sweeps still
allowed before the `iteration_count > 500` guard fires: the top-level
call passes 500, so the 501st sweep runs and then the exception is
raised with that sweep's remainder. -/
def sort_loop (api : ApiData) (fuel : Nat) (sorted notFound : List (String × StructEntry)) :
    Except String (List (String × StructEntry)) :=
  if notFound = [] then .ok sorted
  else
    match sweep_pass api sorted [] notFound with
    | .error e => .error e
    | .ok (sorted', current) =>
      match fuel with
      | 0 => .error (unresolved_msg current)
      | fuel' + 1 => sort_loop api fuel' sorted' current

/-- `sort_structs_map` from build.py: returns the reordered map plus the
two forward-declaration tables. -/
def sort_structs_map (api : ApiData) (structs_map : List (String × StructEntry)) :
    Except String (List (String × StructEntry) × List (String × String) ×
      List (String × String × String)) :=
  match pass1_run api [] [] structs_map with
  | .error e => .error e
  | .ok (sorted0, notFound0) =>
    match sort_loop api 500 sorted0 notFound0 with
    | .error e => .error e
    | .ok sorted => .ok (sorted, forward_delcarations, extra_forward_delcarations)

/-!  ## Dependency extraction for the ordering property

`dep_of_type` captures which referenced base-type names the sorter treats
as blocking (mirroring the exemptions of build.py 712-718): primitives,
the allowlisted self-reference and function-pointer typedefs never block. -/

/-- The blocking dependency (if any) induced by one type string, under
the sorter's exemptions. -/
def dep_of_type (api : ApiData) (classInFwd : Option String) (ty : String) : Option String :=
  match analyze_type ty with
  | none => none
  | some (_, base, _) =>
    if is_primitive_arg base then none
    else if classInFwd = some base then none
    else
      match search_for_class_by_class_name api base with
      | some (m, cn) =>
        match get_class api m cn with
        | some fc => if class_is_typedef fc then none else some base
        | none => some base
      | none => some base

/-- Blocking dependencies collected from a member list (struct fields or
enum variants). -/
def deps_members (api : ApiData) (classInFwd : Option String) :
    List (String × Option String) → List String
  | [] => []
  | (_, none) :: rest => deps_members api classInFwd rest
  | (_, some ty) :: rest =>
    match dep_of_type api classInFwd ty with
    | none => deps_members api classInFwd rest
    | some d => d :: deps_members api classInFwd rest

/-- All blocking dependencies of one structs-map entry. -/
def entry_deps (api : ApiData) (class_name : String) (e : StructEntry) : List String :=
  let classInFwd := lookupA forward_delcarations class_name
  if entry_is_callback_typedef e then []
  else
    match e.struct with
    | some fields => deps_members api classInFwd fields
    | none =>
      match e.enum with
      | some variants => deps_members api classInFwd variants
      | none => []

/-- `order_ok_from api placed l`: walking `l` in order, every blocking
dependency of every entry is already among `placed` (as an `Az`-prefixed
key) or among the keys of the earlier entries of `l`. -/
def order_ok_from (api : ApiData) (placed : List String) : List (String × StructEntry) → Bool
  | [] => true
  | (n, e) :: rest =>
    (entry_deps api n e).all (fun d => memb (azPfx ++ d) placed) &&
      order_ok_from api (placed ++ [n]) rest

/-- Modelled from the spec: the dependency notion of claim C2 as written,
which exempts only primitives and the fixed allowlisted self-reference —
not fields whose class is a callback typedef. -/
def claimed_dep_of_type (classInFwd : Option String) (ty : String) : Option String :=
  match analyze_type ty with
  | none => none
  | some (_, base, _) =>
    if is_primitive_arg base then none
    else if classInFwd = some base then none
    else some base

/-- Modelled from the spec: dependencies of a member list per claim C2. -/
def claimed_deps_members (classInFwd : Option String) :
    List (String × Option String) → List String
  | [] => []
  | (_, none) :: rest => claimed_deps_members classInFwd rest
  | (_, some ty) :: rest =>
    match claimed_dep_of_type classInFwd ty with
    | none => claimed_deps_members classInFwd rest
    | some d => d :: claimed_deps_members classInFwd rest

/-- Modelled from the spec: all non-primitive referenced names of one
placed struct/enum declaration, per claim C2 as written. -/
def claimed_entry_deps (class_name : String) (e : StructEntry) : List String :=
  let classInFwd := lookupA forward_delcarations class_name
  if entry_is_callback_typedef e then []
  else
    match e.struct with
    | some fields => claimed_deps_members classInFwd fields
    | none =>
      match e.enum with
      | some variants => claimed_deps_members classInFwd variants
      | none => []

/-- Modelled from the spec: claim C2's ordering property as written. -/
def claimed_order_ok_from (placed : List String) : List (String × StructEntry) → Bool
  | [] => true
  | (n, e) :: rest =>
    (claimed_entry_deps n e).all (fun d => memb (azPfx ++ d) placed) &&
      claimed_order_ok_from (placed ++ [n]) rest

/-!  ## Sorter lemmas -/

theorem pass1_run_perm (api : ApiData) :
    ∀ (input sorted notFound s' n' : List (String × StructEntry)),
      pass1_run api sorted notFound input = .ok (s', n') →
      (s' ++ n').Perm ((sorted ++ notFound) ++ input) := by
  intro input
  induction input with
  | nil =>
    intro sorted notFound s' n' h
    simp only [pass1_run] at h
    cases h
    simp
  | cons p rest ih =>
    intro sorted notFound s' n' h
    obtain ⟨n, c⟩ := p
    simp only [pass1_run] at h
    cases hins : pass1_should_insert api n c with
    | error e => rw [hins] at h; cases h
    | ok b =>
      rw [hins] at h
      cases b with
      | true =>
        have := ih (sorted ++ [(n, c)]) notFound s' n' h
        refine this.trans ?_
        have hmid : ((n, c) :: (notFound ++ rest)).Perm (notFound ++ (n, c) :: rest) :=
          List.perm_middle.symm
        have e1 : ((sorted ++ [(n, c)]) ++ notFound) ++ rest
            = sorted ++ ((n, c) :: (notFound ++ rest)) := by simp
        have e2 : (sorted ++ notFound) ++ ((n, c) :: rest)
            = sorted ++ (notFound ++ (n, c) :: rest) := by simp
        rw [e1, e2]
        exact hmid.append_left sorted
      | false =>
        have := ih sorted (notFound ++ [(n, c)]) s' n' h
        refine this.trans ?_
        simp

theorem sweep_pass_perm (api : ApiData) :
    ∀ (input sorted current s' c' : List (String × StructEntry)),
      sweep_pass api sorted current input = .ok (s', c') →
      (s' ++ c').Perm ((sorted ++ current) ++ input) := by
  intro input
  induction input with
  | nil =>
    intro sorted current s' c' h
    simp only [sweep_pass] at h
    cases h
    simp
  | cons p rest ih =>
    intro sorted current s' c' h
    obtain ⟨n, c⟩ := p
    simp only [sweep_pass] at h
    cases hins : sweep_should_insert api sorted n c with
    | error e => rw [hins] at h; cases h
    | ok b =>
      rw [hins] at h
      cases b with
      | true =>
        have := ih (sorted ++ [(n, c)]) current s' c' h
        refine this.trans ?_
        have hmid : ((n, c) :: (current ++ rest)).Perm (current ++ (n, c) :: rest) :=
          List.perm_middle.symm
        have e1 : ((sorted ++ [(n, c)]) ++ current) ++ rest
            = sorted ++ ((n, c) :: (current ++ rest)) := by simp
        have e2 : (sorted ++ current) ++ ((n, c) :: rest)
            = sorted ++ (current ++ (n, c) :: rest) := by simp
        rw [e1, e2]
        exact hmid.append_left sorted
      | false =>
        have := ih sorted (current ++ [(n, c)]) s' c' h
        refine this.trans ?_
        simp

theorem sort_loop_perm (api : ApiData) :
    ∀ (fuel : Nat) (sorted notFound out : List (String × StructEntry)),
      sort_loop api fuel sorted notFound = .ok out →
      out.Perm (sorted ++ notFound) := by
  intro fuel
  induction fuel with
  | zero =>
    intro sorted notFound out h
    rw [sort_loop] at h
    split at h
    · cases h
      simp_all
    · cases hsw : sweep_pass api sorted [] notFound with
      | error e => rw [hsw] at h; cases h
      | ok pr => rw [hsw] at h; cases h
  | succ fuel ih =>
    intro sorted notFound out h
    rw [sort_loop] at h
    split at h
    · cases h
      simp_all
    · cases hsw : sweep_pass api sorted [] notFound with
      | error e => rw [hsw] at h; cases h
      | ok pr =>
        obtain ⟨s', c'⟩ := pr
        rw [hsw] at h
        have h1 := ih s' c' out h
        have h2 := sweep_pass_perm api notFound sorted [] s' c' hsw
        refine h1.trans (h2.trans ?_)
        simp

/-- If a run of the sorter succeeds, the output map is a permutation of
the input map: same keys, same unmodified entries, nothing dropped or
duplicated. -/
theorem sort_structs_map_perm (api : ApiData)
    (sm sorted : List (String × StructEntry)) (fwd : List (String × String))
    (efwd : List (String × String × String))
    (h : sort_structs_map api sm = .ok (sorted, fwd, efwd)) :
    sorted.Perm sm := by
  unfold sort_structs_map at h
  split at h
  · cases h
  rename_i s0 n0 hp
  split at h
  · cases h
  rename_i outl hl
  cases h
  have h1 := sort_loop_perm api 500 s0 n0 sorted hl
  have h2 := pass1_run_perm api sm [] [] s0 n0 hp
  simpa using h1.trans h2

/-- A sweep that places nothing reproduces its own state, so the loop
keeps re-running it until the iteration guard fires, whatever fuel
remains. -/
theorem sort_loop_stuck (api : ApiData) :
    ∀ (fuel : Nat) (sorted notFound : List (String × StructEntry)),
      notFound ≠ [] →
      sweep_pass api sorted [] notFound = .ok (sorted, notFound) →
      sort_loop api fuel sorted notFound = .error (unresolved_msg notFound) := by
  intro fuel
  induction fuel with
  | zero =>
    intro sorted notFound hne hstuck
    rw [sort_loop]
    rw [if_neg hne, hstuck]
  | succ fuel ih =>
    intro sorted notFound hne hstuck
    rw [sort_loop]
    rw [if_neg hne, hstuck]
    exact ih sorted notFound hne hstuck

/-- Pass-1 acceptance of a struct means it has no blocking dependency at
all (the accumulator flag was never cleared). -/
theorem pass1_struct_fields_deps (api : ApiData) (cn : String) (fwd : Option String) :
    ∀ (fields : List (String × Option String)) (flag : Bool),
      pass1_struct_fields api cn fwd fields flag = .ok true →
      flag = true ∧ deps_members api fwd fields = [] := by
  intro fields
  induction fields with
  | nil =>
    intro flag h
    simp only [pass1_struct_fields] at h
    cases h
    exact ⟨rfl, rfl⟩
  | cons f rest ih =>
    intro flag h
    obtain ⟨fn, fty⟩ := f
    cases fty with
    | none =>
      simp only [pass1_struct_fields] at h
      exact Except.noConfusion h
    | some ty =>
      cases han : analyze_type ty with
      | none =>
        simp only [pass1_struct_fields, han] at h
        exact Except.noConfusion h
      | some trip =>
        obtain ⟨s, base, e⟩ := trip
        by_cases hprim : is_primitive_arg base = true
        · simp [pass1_struct_fields, han, hprim] at h
          obtain ⟨h1, h2⟩ := ih flag h
          have hd : dep_of_type api fwd ty = none := by simp [dep_of_type, han, hprim]
          exact ⟨h1, by simp [deps_members, hd, h2]⟩
        · cases hsr : search_for_class_by_class_name api base with
          | none =>
            simp [pass1_struct_fields, han, hprim, hsr] at h
          | some path =>
            obtain ⟨m, cn2⟩ := path
            cases hgc : get_class api m cn2 with
            | none =>
              simp [pass1_struct_fields, han, hprim, hsr, hgc] at h
            | some fc =>
              by_cases hfwd : fwd = some base
              · have hcond : (!(decide (fwd = some base)) && !(class_is_typedef fc)) = false := by
                  simp [hfwd]
                simp [pass1_struct_fields, han, hprim, hsr, hgc, hcond] at h
                obtain ⟨h1, h2⟩ := ih flag h
                have hd : dep_of_type api fwd ty = none := by
                  simp [dep_of_type, han, hprim, hfwd]
                exact ⟨h1, by simp [deps_members, hd, h2]⟩
              · by_cases htd : class_is_typedef fc = true
                · have hcond : (!(decide (fwd = some base)) && !(class_is_typedef fc)) = false := by
                    simp [htd]
                  simp [pass1_struct_fields, han, hprim, hsr, hgc, hcond] at h
                  obtain ⟨h1, h2⟩ := ih flag h
                  have hd : dep_of_type api fwd ty = none := by
                    simp [dep_of_type, han, hprim, hfwd, hsr, hgc, htd]
                  exact ⟨h1, by simp [deps_members, hd, h2]⟩
                · have hcond : (!(decide (fwd = some base)) && !(class_is_typedef fc)) = true := by
                    simp [hfwd, htd]
                  simp [pass1_struct_fields, han, hprim, hsr, hgc, hcond] at h
                  exact absurd (ih false h).1 (by simp)

/-- Same statement for the pass-1 variant scan. -/
theorem pass1_enum_variants_deps (api : ApiData) (cn : String) (fwd : Option String) :
    ∀ (variants : List (String × Option String)) (flag : Bool),
      pass1_enum_variants api cn fwd variants flag = .ok true →
      flag = true ∧ deps_members api fwd variants = [] := by
  intro variants
  induction variants with
  | nil =>
    intro flag h
    simp only [pass1_enum_variants] at h
    cases h
    exact ⟨rfl, rfl⟩
  | cons f rest ih =>
    intro flag h
    obtain ⟨fn, fty⟩ := f
    cases fty with
    | none =>
      simp only [pass1_enum_variants] at h
      obtain ⟨h1, h2⟩ := ih flag h
      exact ⟨h1, by simp only [deps_members]; exact h2⟩
    | some ty =>
      cases han : analyze_type ty with
      | none =>
        simp only [pass1_enum_variants, han] at h
        exact Except.noConfusion h
      | some trip =>
        obtain ⟨s, base, e⟩ := trip
        by_cases hprim : is_primitive_arg base = true
        · simp [pass1_enum_variants, han, hprim] at h
          obtain ⟨h1, h2⟩ := ih flag h
          have hd : dep_of_type api fwd ty = none := by simp [dep_of_type, han, hprim]
          exact ⟨h1, by simp [deps_members, hd, h2]⟩
        · cases hsr : search_for_class_by_class_name api base with
          | none =>
            simp [pass1_enum_variants, han, hprim, hsr] at h
          | some path =>
            obtain ⟨m, cn2⟩ := path
            cases hgc : get_class api m cn2 with
            | none =>
              simp [pass1_enum_variants, han, hprim, hsr, hgc] at h
            | some fc =>
              by_cases hfwd : fwd = some base
              · have hcond : (!(decide (fwd = some base)) && !(class_is_typedef fc)) = false := by
                  simp [hfwd]
                simp [pass1_enum_variants, han, hprim, hsr, hgc, hcond] at h
                obtain ⟨h1, h2⟩ := ih flag h
                have hd : dep_of_type api fwd ty = none := by
                  simp [dep_of_type, han, hprim, hfwd]
                exact ⟨h1, by simp [deps_members, hd, h2]⟩
              · by_cases htd : class_is_typedef fc = true
                · have hcond : (!(decide (fwd = some base)) && !(class_is_typedef fc)) = false := by
                    simp [htd]
                  simp [pass1_enum_variants, han, hprim, hsr, hgc, hcond] at h
                  obtain ⟨h1, h2⟩ := ih flag h
                  have hd : dep_of_type api fwd ty = none := by
                    simp [dep_of_type, han, hprim, hfwd, hsr, hgc, htd]
                  exact ⟨h1, by simp [deps_members, hd, h2]⟩
                · have hcond : (!(decide (fwd = some base)) && !(class_is_typedef fc)) = true := by
                    simp [hfwd, htd]
                  simp [pass1_enum_variants, han, hprim, hsr, hgc, hcond] at h
                  exact absurd (ih false h).1 (by simp)

/-- Sweep acceptance of a struct means every blocking dependency is
already a key of the sorted map. -/
theorem sweep_struct_fields_deps (api : ApiData) (keys : List String) (fwd : Option String) :
    ∀ (fields : List (String × Option String)) (flag : Bool),
      sweep_struct_fields api keys fwd fields flag = .ok true →
      flag = true ∧ ∀ d ∈ deps_members api fwd fields, memb (azPfx ++ d) keys = true := by
  intro fields
  induction fields with
  | nil =>
    intro flag h
    simp only [sweep_struct_fields] at h
    cases h
    exact ⟨rfl, by simp [deps_members]⟩
  | cons f rest ih =>
    intro flag h
    obtain ⟨fn, fty⟩ := f
    cases fty with
    | none =>
      simp only [sweep_struct_fields] at h
      exact Except.noConfusion h
    | some ty =>
      cases han : analyze_type ty with
      | none =>
        simp only [sweep_struct_fields, han] at h
        exact Except.noConfusion h
      | some trip =>
        obtain ⟨s, base, e⟩ := trip
        by_cases hprim : is_primitive_arg base = true
        · simp [sweep_struct_fields, han, hprim] at h
          obtain ⟨h1, h2⟩ := ih flag h
          have hd : dep_of_type api fwd ty = none := by simp [dep_of_type, han, hprim]
          exact ⟨h1, by simp [deps_members, hd]; exact h2⟩
        · cases hsr : search_for_class_by_class_name api base with
          | none =>
            simp [sweep_struct_fields, han, hprim, hsr] at h
          | some path =>
            obtain ⟨m, cn2⟩ := path
            cases hgc : get_class api m cn2 with
            | none =>
              simp [sweep_struct_fields, han, hprim, hsr, hgc] at h
            | some fc =>
              by_cases hfwd : fwd = some base
              · have hcond : (!(decide (fwd = some base)) && !(class_is_typedef fc)) = false := by
                  simp [hfwd]
                simp [sweep_struct_fields, han, hprim, hsr, hgc, hcond] at h
                obtain ⟨h1, h2⟩ := ih flag h
                have hd : dep_of_type api fwd ty = none := by
                  simp [dep_of_type, han, hprim, hfwd]
                exact ⟨h1, by simp [deps_members, hd]; exact h2⟩
              · by_cases htd : class_is_typedef fc = true
                · have hcond : (!(decide (fwd = some base)) && !(class_is_typedef fc)) = false := by
                    simp [htd]
                  simp [sweep_struct_fields, han, hprim, hsr, hgc, hcond] at h
                  obtain ⟨h1, h2⟩ := ih flag h
                  have hd : dep_of_type api fwd ty = none := by
                    simp [dep_of_type, han, hprim, hfwd, hsr, hgc, htd]
                  exact ⟨h1, by simp [deps_members, hd]; exact h2⟩
                · have hcond : (!(decide (fwd = some base)) && !(class_is_typedef fc)) = true := by
                    simp [hfwd, htd]
                  have hd : dep_of_type api fwd ty = some base := by
                    simp [dep_of_type, han, hprim, hfwd, hsr, hgc, htd]
                  by_cases hmem : memb (azPfx ++ base) keys = true
                  · simp [sweep_struct_fields, han, hprim, hsr, hgc, hcond, hmem] at h
                    obtain ⟨h1, h2⟩ := ih flag h
                    refine ⟨h1, ?_⟩
                    intro d hdm
                    simp only [deps_members, hd] at hdm
                    rcases List.mem_cons.mp hdm with hh | hh
                    · rw [hh]; exact hmem
                    · exact h2 d hh
                  · have hmem' : memb (azPfx ++ base) keys = false := by
                      simpa using hmem
                    simp [sweep_struct_fields, han, hprim, hsr, hgc, hcond, hmem'] at h
                    exact absurd (ih false h).1 (by simp)

/-- Same statement for the sweep variant scan. -/
theorem sweep_enum_variants_deps (api : ApiData) (keys : List String) (fwd : Option String) :
    ∀ (variants : List (String × Option String)) (flag : Bool),
      sweep_enum_variants api keys fwd variants flag = .ok true →
      flag = true ∧ ∀ d ∈ deps_members api fwd variants, memb (azPfx ++ d) keys = true := by
  intro variants
  induction variants with
  | nil =>
    intro flag h
    simp only [sweep_enum_variants] at h
    cases h
    exact ⟨rfl, by simp [deps_members]⟩
  | cons f rest ih =>
    intro flag h
    obtain ⟨fn, fty⟩ := f
    cases fty with
    | none =>
      simp only [sweep_enum_variants] at h
      obtain ⟨h1, h2⟩ := ih flag h
      exact ⟨h1, by simp only [deps_members]; exact h2⟩
    | some ty =>
      cases han : analyze_type ty with
      | none =>
        simp only [sweep_enum_variants, han] at h
        exact Except.noConfusion h
      | some trip =>
        obtain ⟨s, base, e⟩ := trip
        by_cases hprim : is_primitive_arg base = true
        · simp [sweep_enum_variants, han, hprim] at h
          obtain ⟨h1, h2⟩ := ih flag h
          have hd : dep_of_type api fwd ty = none := by simp [dep_of_type, han, hprim]
          exact ⟨h1, by simp [deps_members, hd]; exact h2⟩
        · cases hsr : search_for_class_by_class_name api base with
          | none =>
            simp [sweep_enum_variants, han, hprim, hsr] at h
          | some path =>
            obtain ⟨m, cn2⟩ := path
            cases hgc : get_class api m cn2 with
            | none =>
              simp [sweep_enum_variants, han, hprim, hsr, hgc] at h
            | some fc =>
              by_cases hfwd : fwd = some base
              · have hcond : (!(decide (fwd = some base)) && !(class_is_typedef fc)) = false := by
                  simp [hfwd]
                simp [sweep_enum_variants, han, hprim, hsr, hgc, hcond] at h
                obtain ⟨h1, h2⟩ := ih flag h
                have hd : dep_of_type api fwd ty = none := by
                  simp [dep_of_type, han, hprim, hfwd]
                exact ⟨h1, by simp [deps_members, hd]; exact h2⟩
              · by_cases htd : class_is_typedef fc = true
                · have hcond : (!(decide (fwd = some base)) && !(class_is_typedef fc)) = false := by
                    simp [htd]
                  simp [sweep_enum_variants, han, hprim, hsr, hgc, hcond] at h
                  obtain ⟨h1, h2⟩ := ih flag h
                  have hd : dep_of_type api fwd ty = none := by
                    simp [dep_of_type, han, hprim, hfwd, hsr, hgc, htd]
                  exact ⟨h1, by simp [deps_members, hd]; exact h2⟩
                · have hcond : (!(decide (fwd = some base)) && !(class_is_typedef fc)) = true := by
                    simp [hfwd, htd]
                  have hd : dep_of_type api fwd ty = some base := by
                    simp [dep_of_type, han, hprim, hfwd, hsr, hgc, htd]
                  by_cases hmem : memb (azPfx ++ base) keys = true
                  · simp [sweep_enum_variants, han, hprim, hsr, hgc, hcond, hmem] at h
                    obtain ⟨h1, h2⟩ := ih flag h
                    refine ⟨h1, ?_⟩
                    intro d hdm
                    simp only [deps_members, hd] at hdm
                    rcases List.mem_cons.mp hdm with hh | hh
                    · rw [hh]; exact hmem
                    · exact h2 d hh
                  · have hmem' : memb (azPfx ++ base) keys = false := by
                      simpa using hmem
                    simp [sweep_enum_variants, han, hprim, hsr, hgc, hcond, hmem'] at h
                    exact absurd (ih false h).1 (by simp)

/-- An entry accepted in pass 1 has no blocking dependency. -/
theorem pass1_should_insert_deps (api : ApiData) (n : String) (e : StructEntry)
    (h : pass1_should_insert api n e = .ok true) : entry_deps api n e = [] := by
  unfold pass1_should_insert at h
  unfold entry_deps
  by_cases hcb : entry_is_callback_typedef e = true
  · simp [hcb]
  · simp only [Bool.not_eq_true] at hcb
    simp only [hcb, Bool.false_eq_true, if_false] at h ⊢
    cases hst : e.struct with
    | some fields =>
      rw [hst] at h
      exact (pass1_struct_fields_deps api n _ fields true h).2
    | none =>
      rw [hst] at h
      cases hen : e.enum with
      | some variants =>
        rw [hen] at h
        exact (pass1_enum_variants_deps api n _ variants true h).2
      | none =>
        rw [hen] at h

/-- An entry accepted during a sweep has all blocking dependencies among
the keys already placed. -/
theorem sweep_should_insert_deps (api : ApiData) (sorted : List (String × StructEntry))
    (n : String) (e : StructEntry)
    (h : sweep_should_insert api sorted n e = .ok true) :
    ∀ d ∈ entry_deps api n e, memb (azPfx ++ d) (sorted.map Prod.fst) = true := by
  unfold sweep_should_insert at h
  unfold entry_deps
  by_cases hcb : entry_is_callback_typedef e = true
  · simp [hcb]
  · simp only [Bool.not_eq_true] at hcb
    simp only [hcb, Bool.false_eq_true, if_false] at h ⊢
    cases hst : e.struct with
    | some fields =>
      rw [hst] at h
      exact (sweep_struct_fields_deps api (sorted.map Prod.fst) _ fields true h).2
    | none =>
      rw [hst] at h
      cases hen : e.enum with
      | some variants =>
        rw [hen] at h
        exact (sweep_enum_variants_deps api (sorted.map Prod.fst) _ variants true h).2
      | none =>
        rw [hen] at h
        exact Except.noConfusion h

/-- Appending one entry to an ordered prefix. -/
theorem order_ok_from_append (api : ApiData) :
    ∀ (l : List (String × StructEntry)) (P : List String) (n : String) (e : StructEntry),
      order_ok_from api P (l ++ [(n, e)]) =
        (order_ok_from api P l &&
          (entry_deps api n e).all (fun d => memb (azPfx ++ d) (P ++ l.map Prod.fst))) := by
  intro l
  induction l with
  | nil =>
    intro P n e
    simp [order_ok_from]
  | cons p rest ih =>
    intro P n e
    obtain ⟨m, x⟩ := p
    have hstep : ((m, x) :: rest) ++ [(n, e)] = (m, x) :: (rest ++ [(n, e)]) := rfl
    rw [hstep]
    simp only [order_ok_from]
    rw [ih (P ++ [m]) n e]
    simp [Bool.and_assoc, List.append_assoc]

theorem pass1_run_order (api : ApiData) :
    ∀ (input sorted notFound s' n' : List (String × StructEntry)),
      pass1_run api sorted notFound input = .ok (s', n') →
      order_ok_from api [] sorted = true →
      order_ok_from api [] s' = true := by
  intro input
  induction input with
  | nil =>
    intro sorted notFound s' n' h hord
    simp only [pass1_run] at h
    cases h
    exact hord
  | cons p rest ih =>
    intro sorted notFound s' n' h hord
    obtain ⟨n, c⟩ := p
    simp only [pass1_run] at h
    cases hins : pass1_should_insert api n c with
    | error e =>
      rw [hins] at h
      exact Except.noConfusion h
    | ok b =>
      rw [hins] at h
      cases b with
      | true =>
        have hdeps := pass1_should_insert_deps api n c hins
        have hstep : order_ok_from api [] (sorted ++ [(n, c)]) = true := by
          rw [order_ok_from_append]
          simp [hord, hdeps]
        exact ih (sorted ++ [(n, c)]) notFound s' n' h hstep
      | false => exact ih sorted (notFound ++ [(n, c)]) s' n' h hord

theorem sweep_pass_order (api : ApiData) :
    ∀ (input sorted current s' c' : List (String × StructEntry)),
      sweep_pass api sorted current input = .ok (s', c') →
      order_ok_from api [] sorted = true →
      order_ok_from api [] s' = true := by
  intro input
  induction input with
  | nil =>
    intro sorted current s' c' h hord
    simp only [sweep_pass] at h
    cases h
    exact hord
  | cons p rest ih =>
    intro sorted current s' c' h hord
    obtain ⟨n, c⟩ := p
    simp only [sweep_pass] at h
    cases hins : sweep_should_insert api sorted n c with
    | error e =>
      rw [hins] at h
      exact Except.noConfusion h
    | ok b =>
      rw [hins] at h
      cases b with
      | true =>
        have hdeps := sweep_should_insert_deps api sorted n c hins
        have hstep : order_ok_from api [] (sorted ++ [(n, c)]) = true := by
          rw [order_ok_from_append]
          simp only [hord, Bool.true_and]
          rw [List.all_eq_true]
          intro d hd
          simpa using hdeps d hd
        exact ih (sorted ++ [(n, c)]) current s' c' h hstep
      | false => exact ih sorted (current ++ [(n, c)]) s' c' h hord

theorem sort_loop_order (api : ApiData) :
    ∀ (fuel : Nat) (sorted notFound out : List (String × StructEntry)),
      sort_loop api fuel sorted notFound = .ok out →
      order_ok_from api [] sorted = true →
      order_ok_from api [] out = true := by
  intro fuel
  induction fuel with
  | zero =>
    intro sorted notFound out h hord
    rw [sort_loop] at h
    split at h
    · cases h; exact hord
    · cases hsw : sweep_pass api sorted [] notFound with
      | error e => rw [hsw] at h; exact Except.noConfusion h
      | ok pr => rw [hsw] at h; exact Except.noConfusion h
  | succ fuel ih =>
    intro sorted notFound out h hord
    rw [sort_loop] at h
    split at h
    · cases h; exact hord
    · cases hsw : sweep_pass api sorted [] notFound with
      | error e => rw [hsw] at h; exact Except.noConfusion h
      | ok pr =>
        obtain ⟨s', c'⟩ := pr
        rw [hsw] at h
        have hs' := sweep_pass_order api notFound sorted [] s' c' hsw hord
        exact ih s' c' out h hs'

/-!  ## Concrete schemas used as witnesses and counterexamples -/

/-- Two inline structs, `Foo` depending on `Bar`, listed dependent-first
in the structs map so that the sweep has to reorder them. -/
def apiPair : ApiData :=
  [("app", [("Bar", { struct_fields := some [("x", some "u8")] }),
            ("Foo", { struct_fields := some [("a", some "Bar")] })])]

def smPair : List (String × StructEntry) :=
  [("AzFoo", { struct := some [("a", some "Bar")], external := some "azul_impl::Foo" }),
   ("AzBar", { struct := some [("x", some "u8")], external := some "azul_impl::Bar" })]

def smPairSorted : List (String × StructEntry) :=
  [("AzBar", { struct := some [("x", some "u8")], external := some "azul_impl::Bar" }),
   ("AzFoo", { struct := some [("a", some "Bar")], external := some "azul_impl::Foo" })]

/-- A struct whose dependency resolves in the api but has no entry in the
structs map: no sweep can ever place it. -/
def apiStuck : ApiData :=
  [("app", [("Foo", { struct_fields := some [("a", some "Bar")] }),
            ("Bar", { struct_fields := some [("x", some "u8")] })])]

def smStuck : List (String × StructEntry) :=
  [("AzFoo", { struct := some [("a", some "Bar")], external := some "azul_impl::Foo" })]

/-- A struct whose only field is a callback typedef that appears later in
the structs map. -/
def apiC2 : ApiData :=
  [("callbacks", [("Bar", { callback_typedef := some 1 }),
                  ("Foo", { struct_fields := some [("a", some "Bar")] })])]

def smC2 : List (String × StructEntry) :=
  [("AzFoo", { struct := some [("a", some "Bar")], external := some "azul_impl::Foo" }),
   ("AzBar", { callback_typedef := some 1 })]

/-!  ## Claim theorems: C2, C4, C10 -/

/-- C10: `sort_structs_map` returns a permutation of its input: on every
non-raising run the output map is a permutation of the input map — the
same keys, each exactly once (as key-entry pairs), every key mapped to
the unmodified entry, nothing dropped, duplicated or altered. -/
theorem C10_sort_structs_map_permutation (api : ApiData)
    (sm sorted : List (String × StructEntry)) (fwd : List (String × String))
    (efwd : List (String × String × String))
    (h : sort_structs_map api sm = .ok (sorted, fwd, efwd)) :
    sorted.Perm sm ∧ (sorted.map Prod.fst).Perm (sm.map Prod.fst) ∧
      ∀ p, p ∈ sorted ↔ p ∈ sm := by
  have hp := sort_structs_map_perm api sm sorted fwd efwd h
  exact ⟨hp, hp.map Prod.fst, fun p => hp.mem_iff⟩

theorem C10_sort_structs_map_permutation_witness :
    smPairSorted.Perm smPair ∧ (smPairSorted.map Prod.fst).Perm (smPair.map Prod.fst) ∧
      ∀ p, p ∈ smPairSorted ↔ p ∈ smPair :=
  C10_sort_structs_map_permutation apiPair smPair smPairSorted forward_delcarations
    extra_forward_delcarations (by rfl)

/-- C4: when the dependency-resolution sweep cannot make progress (a full
sweep over a nonempty remainder places nothing), `sort_structs_map`
terminates with the fatal `infinite recursion` exception — raised by the
`iteration_count > 500` guard after the bounded number of sweeps — whose
message lists the declarations that remain unplaced; the stuck state is
never resolved into an output order. -/
theorem C4_sort_cycle_fatal (api : ApiData) (sm s0 n0 : List (String × StructEntry))
    (hp : pass1_run api [] [] sm = .ok (s0, n0)) (hne : n0 ≠ [])
    (hstuck : sweep_pass api s0 [] n0 = .ok (s0, n0)) :
    sort_structs_map api sm = .error (unresolved_msg n0) := by
  have hl := sort_loop_stuck api 500 s0 n0 hne hstuck
  simp only [sort_structs_map, hp, hl]

theorem C4_sort_cycle_fatal_witness :
    sort_structs_map apiStuck smStuck = .error (unresolved_msg smStuck) :=
  C4_sort_cycle_fatal apiStuck smStuck [] smStuck (by rfl) (by simp [smStuck]) (by rfl)

/-- C2 counterexample: the claim as stated is false — `AzFoo` references
the non-primitive name `Bar` (a callback typedef placed after it), yet
the sorter succeeds with `AzFoo` first, so a referenced non-primitive
type does not appear at an earlier position and the entry is not on the
allowlist. -/
theorem C2_counterexample :
    sort_structs_map apiC2 smC2 =
      .ok (smC2, forward_delcarations, extra_forward_delcarations) ∧
    claimed_order_ok_from [] smC2 = false :=
  ⟨by rfl, by rfl⟩

/-- C2 (amended): in the ordered map returned by `sort_structs_map`,
every non-primitive type referenced by a placed struct or enum
declaration appears at an earlier position, except (a) the allowlisted
self-referential container classes and (b) referenced classes that are
callback typedefs (function pointers), which the sorter exempts from the
ordering requirement. -/
theorem C2_sort_order_amended (api : ApiData)
    (sm sorted : List (String × StructEntry)) (fwd : List (String × String))
    (efwd : List (String × String × String))
    (h : sort_structs_map api sm = .ok (sorted, fwd, efwd)) :
    order_ok_from api [] sorted = true := by
  unfold sort_structs_map at h
  split at h
  · exact Except.noConfusion h
  rename_i s0 n0 hp
  split at h
  · exact Except.noConfusion h
  rename_i outl hl
  cases h
  have h0 := pass1_run_order api sm [] [] s0 n0 hp (by rfl)
  exact sort_loop_order api 500 s0 n0 sorted hl h0

theorem C2_sort_order_amended_witness :
    order_ok_from apiPair [] smPairSorted = true :=
  C2_sort_order_amended apiPair smPair smPairSorted forward_delcarations
    extra_forward_delcarations (by rfl)

/-!  ## Type-analyzer lemmas (claim C8) -/

theorem splitSemiL_append (rest : List Char) :
    ∀ (T : List Char), ';' ∉ T → splitSemiL (T ++ ';' :: rest) = T :: splitSemiL rest := by
  intro T
  induction T with
  | nil => intro h; simp [splitSemiL]
  | cons c t ih =>
    intro h
    have hc : c ≠ ';' := fun hh => h (hh ▸ List.mem_cons_self c t)
    have ht : ';' ∉ t := fun hh => h (List.mem_cons_of_mem c hh)
    simp only [List.cons_append, splitSemiL, if_neg hc, List.append_eq, ih ht]

theorem splitSemiL_no_semi : ∀ (l : List Char), ';' ∉ l → splitSemiL l = [l] := by
  intro l
  induction l with
  | nil => intro h; simp [splitSemiL]
  | cons c t ih =>
    intro h
    have hc : c ≠ ';' := fun hh => h (hh ▸ List.mem_cons_self c t)
    have ht : ';' ∉ t := fun hh => h (List.mem_cons_of_mem c hh)
    simp only [splitSemiL, if_neg hc, ih ht]

theorem trimL_bracket (m : List Char) : trimL ('[' :: (m ++ [']'])) = '[' :: (m ++ [']']) := by
  unfold trimL
  have h1 : (('[' :: (m ++ [']'])).dropWhile pyIsSpace) = '[' :: (m ++ [']']) := by
    simp [List.dropWhile_cons, pyIsSpace]
  rw [h1]
  have h2 : ('[' :: (m ++ [']'])).reverse = ']' :: (m.reverse ++ ['[']) := by
    simp
  rw [h2]
  have h3 : ((']' :: (m.reverse ++ ['['])).dropWhile pyIsSpace) = ']' :: (m.reverse ++ ['[']) := by
    simp [List.dropWhile_cons, pyIsSpace]
  rw [h3, ← h2, List.reverse_reverse]

/-- Every prefix component `analyze_type` can produce (at most one
ownership layer, optionally followed by the array marker). -/
theorem analyze_type_starts_range (arg : String) (t : String × String × String)
    (h : analyze_type arg = some t) :
    memb t.1 ["", "&mut ", "&", "*const ", "*mut ", "[", "&mut [", "&[", "*const [", "*mut ["]
      = true := by
  simp only [analyze_type] at h
  repeat' split at h
  all_goals first
    | exact Option.noConfusion h
    | (cases h; exact rfl)

/-- A string that starts with none of the four ownership markers gets the
empty ownership prefix. -/
theorem analyze_type_no_prefix (arg : String) (t : String × String × String)
    (h1 : pyStartsWith arg "&mut" = false) (h2 : pyStartsWith arg "&" = false)
    (h3 : pyStartsWith arg "*const" = false) (h4 : pyStartsWith arg "*mut" = false)
    (h : analyze_type arg = some t) : t.1 = "" ∨ t.1 = "[" := by
  simp only [analyze_type, h1, h2, h3, h4, Bool.false_eq_true, if_false] at h
  repeat' split at h
  all_goals first
    | exact Option.noConfusion h
    | (cases h; exact Or.inl rfl)
    | (cases h; exact Or.inr rfl)

/-- A well-formed array type `[T;N]` is split into base type `T` and the
length suffix `;N]`. -/
theorem analyze_type_array_split (T N : String)
    (hT : ';' ∉ T.data) (hN : ';' ∉ N.data) :
    analyze_type ("[" ++ T ++ ";" ++ N ++ "]") = some ("[", T, ";" ++ (N ++ "]")) := by
  have hdata : ("[" ++ T ++ ";" ++ N ++ "]").data
      = '[' :: (T.data ++ ';' :: (N.data ++ [']'])) := by
    have : ("[" ++ T ++ ";" ++ N ++ "]").data
        = ((('[' :: T.data) ++ [';']) ++ N.data) ++ [']'] := rfl
    rw [this]
    simp [List.append_assoc]
  have hs1 : pyStartsWith ("[" ++ T ++ ";" ++ N ++ "]") "&mut" = false := by
    simp [pyStartsWith, hdata, List.isPrefixOf]
  have hs2 : pyStartsWith ("[" ++ T ++ ";" ++ N ++ "]") "&" = false := by
    simp [pyStartsWith, hdata, List.isPrefixOf]
  have hs3 : pyStartsWith ("[" ++ T ++ ";" ++ N ++ "]") "*const" = false := by
    simp [pyStartsWith, hdata, List.isPrefixOf]
  have hs4 : pyStartsWith ("[" ++ T ++ ";" ++ N ++ "]") "*mut" = false := by
    simp [pyStartsWith, hdata, List.isPrefixOf]
  have htrim : pyTrim ("[" ++ T ++ ";" ++ N ++ "]") = "[" ++ T ++ ";" ++ N ++ "]" := by
    unfold pyTrim
    rw [hdata]
    have hm : trimL ('[' :: ((T.data ++ ';' :: N.data) ++ [']']))
        = '[' :: ((T.data ++ ';' :: N.data) ++ [']']) := trimL_bracket _
    have hshape : (T.data ++ ';' :: (N.data ++ [']']))
        = (T.data ++ ';' :: N.data) ++ [']'] := by simp
    rw [hshape, hm, ← hshape, ← hdata]
  have hbr : pyStartsWith ("[" ++ T ++ ";" ++ N ++ "]") "[" = true := by
    simp [pyStartsWith, hdata, List.isPrefixOf]
  have hend : pyEndsWith ("[" ++ T ++ ";" ++ N ++ "]") "]" = true := by
    simp [pyEndsWith, hdata, List.isSuffixOf, List.isPrefixOf]
  have hdrop : pyDrop ("[" ++ T ++ ";" ++ N ++ "]") 1 = ⟨T.data ++ ';' :: (N.data ++ [']'])⟩ := by
    unfold pyDrop
    rw [hdata]
    rfl
  have hnb : ';' ∉ N.data ++ [']'] := by
    intro hmem
    rcases List.mem_append.mp hmem with hh | hh
    · exact hN hh
    · simp at hh
  have hsplit : pySplitSemi ⟨T.data ++ ';' :: (N.data ++ [']'])⟩ = [T, ⟨N.data ++ [']']⟩] := by
    unfold pySplitSemi
    rw [show (String.mk (T.data ++ ';' :: (N.data ++ [']']))).data
        = T.data ++ ';' :: (N.data ++ [']']) from rfl]
    rw [splitSemiL_append (N.data ++ [']']) T.data hT, splitSemiL_no_semi _ hnb]
    rfl
  simp only [analyze_type, hs1, hs2, hs3, hs4, Bool.false_eq_true, if_false, htrim, hbr, hend,
    Bool.and_self, if_true, hdrop, hsplit]
  rfl

/-- C8 counterexample: `analyze_type` is not exception-free — on the
bracketed string `"[u8]"` (no `;` separator) Python raises `IndexError`
at `arg_type_array[1]`, modelled here as `none`. -/
theorem C8_counterexample : analyze_type "[u8]" = none := by rfl

/-- C8 (amended): `analyze_type` recognizes at most one ownership prefix
layer (the output prefix is one of none / `&mut` / `&` / `*const` /
`*mut`, optionally followed by the array marker); a string starting with
none of the four markers gets the empty ownership prefix; a `[T;N]`
array nested inside the prefix is split into base type `T` and length
suffix `;N]`.  The function does raise (returns `none`) on bracketed
strings without a `;`, so exception-freedom holds only away from those. -/
theorem C8_analyze_type_amended :
    (∀ (arg : String) (t : String × String × String), analyze_type arg = some t →
      memb t.1 ["", "&mut ", "&", "*const ", "*mut ", "[", "&mut [", "&[", "*const [", "*mut ["]
        = true) ∧
    (∀ (arg : String) (t : String × String × String),
      pyStartsWith arg "&mut" = false → pyStartsWith arg "&" = false →
      pyStartsWith arg "*const" = false → pyStartsWith arg "*mut" = false →
      analyze_type arg = some t → t.1 = "" ∨ t.1 = "[") ∧
    (∀ T N : String, ';' ∉ T.data → ';' ∉ N.data →
      analyze_type ("[" ++ T ++ ";" ++ N ++ "]") = some ("[", T, ";" ++ (N ++ "]"))) :=
  ⟨analyze_type_starts_range, analyze_type_no_prefix, analyze_type_array_split⟩

theorem C8_analyze_type_amended_witness :
    memb ("&mut ", "Foo", "").1
      ["", "&mut ", "&", "*const ", "*mut ", "[", "&mut [", "&[", "*const [", "*mut ["] = true ∧
    (("", "Dom", "").1 = "" ∨ ("", "Dom", "").1 = "[") ∧
    analyze_type ("[" ++ "u8" ++ ";" ++ "4" ++ "]") = some ("[", "u8", ";" ++ ("4" ++ "]")) :=
  ⟨C8_analyze_type_amended.1 "&mut Foo" ("&mut ", "Foo", "") (by rfl),
   C8_analyze_type_amended.2.1 "Dom" ("", "Dom", "") (by rfl) (by rfl) (by rfl) (by rfl) (by rfl),
   C8_analyze_type_amended.2.2 "u8" "4" (by decide) (by decide)⟩

/-!  ## ABI layout verifier (claim C1, `generate_size_test`, build.py 2849-2878) -/

/-- The `(struct_name, external_path)` pairs for which the assertion loop
of `generate_size_test` (build.py 2870-2874) emits a layout assertion:
exactly the entries carrying an `"external"` key, in map order. -/
def size_test_assert_pairs : List (String × StructEntry) → List (String × String)
  | [] => []
  | (name, e) :: rest =>
    match e.external with
    | some ext => (name, ext) :: size_test_assert_pairs rest
    | none => size_test_assert_pairs rest

/-- The assertion line rendered for one pair (build.py 2874): it compares
`Layout::new` of the backing type with `Layout::new` of the mirror. -/
def render_size_assert (p : String × String) : String :=
  "        assert_eq!((Layout::new::<" ++ p.2 ++ ">(), \"" ++ p.1 ++
    "\"), (Layout::new::<" ++ p.1 ++ ">(), \"" ++ p.1 ++ "\"));\r\n"

/-- All assertion lines of the emitted `test_size` module body. -/
def generate_size_test_asserts (sm : List (String × StructEntry)) : List String :=
  (size_test_assert_pairs sm).map render_size_assert

theorem size_test_pairs_not_mem (name : String) :
    ∀ sm : List (String × StructEntry), name ∉ sm.map Prod.fst →
      (size_test_assert_pairs sm).countP (fun p => p.1 = name) = 0 := by
  intro sm
  induction sm with
  | nil => intro _; rfl
  | cons q rest ih =>
    intro h
    obtain ⟨k, v⟩ := q
    have hk : ¬(k = name) := by
      intro hh
      exact h (by simp [hh])
    have hrest : name ∉ rest.map Prod.fst := fun hh => h (by simp [hh])
    cases hext : v.external with
    | some ext =>
      simp only [size_test_assert_pairs, hext]
      rw [List.countP_cons]
      simp [hk, ih hrest]
    | none =>
      simp only [size_test_assert_pairs, hext]
      exact ih hrest

/-- C1: in the assertion list emitted by `generate_size_test`, every
entry of the structs map with a hand-written backing implementation
(an `"external"` path) gets exactly one layout assertion — comparing the
backing type with the mirror of the same name — and entries without an
`"external"` key (callback typedefs) get none. -/
theorem C1_size_test_unique_assert (sm : List (String × StructEntry))
    (name : String) (e : StructEntry)
    (hnd : (sm.map Prod.fst).Nodup) (hmem : (name, e) ∈ sm) :
    (∀ ext, e.external = some ext →
      (size_test_assert_pairs sm).countP (fun p => p.1 = name) = 1 ∧
        (name, ext) ∈ size_test_assert_pairs sm) ∧
    (e.external = none → (size_test_assert_pairs sm).countP (fun p => p.1 = name) = 0) := by
  induction sm with
  | nil => cases hmem
  | cons q rest ih =>
    obtain ⟨k, v⟩ := q
    rw [List.map_cons, List.nodup_cons] at hnd
    rcases List.mem_cons.mp hmem with hh | hh
    · injection hh with hk hv
      subst hk
      subst hv
      have hzero := size_test_pairs_not_mem name rest hnd.1
      constructor
      · intro ext hext
        constructor
        · simp only [size_test_assert_pairs, hext]
          rw [List.countP_cons]
          simp [hzero]
        · simp [size_test_assert_pairs, hext]
      · intro hext
        simp only [size_test_assert_pairs, hext]
        exact hzero
    · have hkeys : name ∈ rest.map Prod.fst := by
        exact List.mem_map.mpr ⟨(name, e), hh, rfl⟩
      have hk : ¬(k = name) := fun hkk => hnd.1 (hkk ▸ hkeys)
      have := ih hnd.2 hh
      constructor
      · intro ext hext
        obtain ⟨hc, hm⟩ := this.1 ext hext
        constructor
        · cases hvx : v.external with
          | some ext2 =>
            simp only [size_test_assert_pairs, hvx]
            rw [List.countP_cons]
            simp [hk, hc]
          | none =>
            simp only [size_test_assert_pairs, hvx]
            exact hc
        · cases hvx : v.external with
          | some ext2 =>
            simp only [size_test_assert_pairs, hvx]
            exact List.mem_cons_of_mem _ hm
          | none =>
            simp only [size_test_assert_pairs, hvx]
            exact hm
      · intro hext
        have hc := this.2 hext
        cases hvx : v.external with
        | some ext2 =>
          simp only [size_test_assert_pairs, hvx]
          rw [List.countP_cons]
          simp [hk, hc]
        | none =>
          simp only [size_test_assert_pairs, hvx]
          exact hc

theorem C1_size_test_unique_assert_witness :
    ((size_test_assert_pairs smPair).countP (fun p => p.1 = "AzFoo") = 1 ∧
      ("AzFoo", "azul_impl::Foo") ∈ size_test_assert_pairs smPair) ∧
    (size_test_assert_pairs smC2).countP (fun p => p.1 = "AzBar") = 0 :=
  ⟨(C1_size_test_unique_assert smPair "AzFoo"
      { struct := some [("a", some "Bar")], external := some "azul_impl::Foo" }
      (by decide) (by decide)).1 "azul_impl::Foo" rfl,
   (C1_size_test_unique_assert smC2 "AzBar" { callback_typedef := some 1 }
      (by decide) (by decide)).2 rfl⟩

/-!  ## C backend enum emission (claim C3) -/

/-- `enum_is_union` from build.py 2384-2391: scan the variants, clearing
the plain-enum flag whenever a variant carries a `"type"`. -/
def enum_is_union (enum : List (String × Option String)) : Bool :=
  !(enum.foldl (fun acc v => if v.2.isSome then false else acc) true)

/-- The C declarations emitted for one enum by `generate_c_structs`
(build.py 2264-2335), abstracted to the names of the emitted items: a
plain enumeration when the enum is not a union; otherwise the tag-enum
entries, one `Variant_` payload wrapper struct per variant (with its raw
payload type), and one union member per variant. -/
inductive CEnumDecl where
  | plainEnum (entries : List String)
  | taggedUnion (tagEntries : List String) (variantStructs : List (String × Option String))
      (unionMembers : List String)
  deriving DecidableEq

def generate_c_enum_decl (struct_name : String) (enum : List (String × Option String)) :
    CEnumDecl :=
  if !(enum_is_union enum) then
    .plainEnum (enum.map (fun v => struct_name ++ "_" ++ v.1))
  else
    .taggedUnion
      (enum.map (fun v => struct_name ++ "Tag_" ++ v.1))
      (enum.map (fun v => (struct_name ++ "Variant_" ++ v.1, v.2)))
      (enum.map (fun v => struct_name ++ "Variant_" ++ v.1))

/-- The variant-construction macro names emitted by
`generate_c_union_macros_and_vec_constructors` (build.py 2350-2363): one
macro per variant, for tagged-union enums only. -/
def generate_c_union_macro_names (struct_name : String)
    (enum : List (String × Option String)) : List String :=
  if !(enum_is_union enum) then []
  else enum.map (fun v => struct_name ++ "_" ++ v.1)

/-- The matcher function names of `generate_c_extra_functions` (build.py
2692-2709): the loop emits a `_matchRef`/`_matchMut` pair for each
variant that carries a `"type"`, and nothing for unit variants. -/
def c_matcher_names (class_name : String) :
    List (String × Option String) → List String
  | [] => []
  | (vn, some _) :: rest =>
    (azPfx ++ class_name ++ "_matchRef" ++ vn) ::
      (azPfx ++ class_name ++ "_matchMut" ++ vn) :: c_matcher_names class_name rest
  | (_, none) :: rest => c_matcher_names class_name rest

/-- The matcher functions emitted for one class, with the
`enum_is_union` gate of build.py 2684-2689. -/
def generate_c_extra_functions_for (class_name : String)
    (enum : List (String × Option String)) : List String :=
  if !(enum_is_union enum) then [] else c_matcher_names class_name enum

/-- Modelled from the spec: claim C3's statement that every variant of a
payload-carrying enum receives a matchRef/matchMut accessor pair. -/
def claimed_matcher_pairs_per_variant (class_name : String)
    (enum : List (String × Option String)) : Bool :=
  enum.all (fun v =>
    memb (azPfx ++ class_name ++ "_matchRef" ++ v.1)
      (generate_c_extra_functions_for class_name enum) &&
    memb (azPfx ++ class_name ++ "_matchMut" ++ v.1)
      (generate_c_extra_functions_for class_name enum))

theorem enum_foldl_flag (enum : List (String × Option String)) :
    ∀ acc : Bool,
      enum.foldl (fun acc v => if v.2.isSome then false else acc) acc
        = (acc && enum.all (fun v => v.2.isNone)) := by
  induction enum with
  | nil => intro acc; simp
  | cons v rest ih =>
    intro acc
    obtain ⟨vn, ty⟩ := v
    cases ty with
    | none =>
      rw [List.foldl_cons]
      show List.foldl _ acc rest = _
      rw [ih acc]
      simp
    | some t =>
      rw [List.foldl_cons]
      show List.foldl _ false rest = _
      rw [ih false]
      simp

/-- The union flag is down exactly when no variant carries a payload. -/
theorem enum_is_union_eq_false_iff (enum : List (String × Option String)) :
    enum_is_union enum = false ↔ ∀ v ∈ enum, v.2 = none := by
  unfold enum_is_union
  rw [enum_foldl_flag enum true]
  simp [List.all_eq_true, Option.isNone_iff_eq_none]

theorem c_matcher_names_length (cn : String) :
    ∀ enum : List (String × Option String),
      (c_matcher_names cn enum).length = 2 * enum.countP (fun v => v.2.isSome) := by
  intro enum
  induction enum with
  | nil => rfl
  | cons v rest ih =>
    obtain ⟨vn, ty⟩ := v
    cases ty with
    | none =>
      simp only [c_matcher_names, ih]
      rw [List.countP_cons]
      simp
    | some t =>
      simp only [c_matcher_names, List.length_cons, ih]
      rw [List.countP_cons]
      simp
      omega

theorem c_matcher_names_mem (cn : String) :
    ∀ (enum : List (String × Option String)) (vn : String) (t : String),
      (vn, some t) ∈ enum →
      (azPfx ++ cn ++ "_matchRef" ++ vn) ∈ c_matcher_names cn enum ∧
        (azPfx ++ cn ++ "_matchMut" ++ vn) ∈ c_matcher_names cn enum := by
  intro enum
  induction enum with
  | nil => intro vn t h; cases h
  | cons v rest ih =>
    intro vn t h
    obtain ⟨wn, wty⟩ := v
    rcases List.mem_cons.mp h with hh | hh
    · injection hh with h1 h2
      subst h1
      subst h2
      simp [c_matcher_names]
    · obtain ⟨m1, m2⟩ := ih vn t hh
      cases wty with
      | none => exact ⟨m1, m2⟩
      | some w =>
        exact ⟨List.mem_cons_of_mem _ (List.mem_cons_of_mem _ m1),
               List.mem_cons_of_mem _ (List.mem_cons_of_mem _ m2)⟩

/-- A payload-carrying variant forces the union representation. -/
theorem enum_is_union_of_payload (enum : List (String × Option String))
    (vn t : String) (h : (vn, some t) ∈ enum) : enum_is_union enum = true := by
  cases hu : enum_is_union enum with
  | true => rfl
  | false =>
    have := (enum_is_union_eq_false_iff enum).mp hu (vn, some t) h
    exact Option.noConfusion this

/-- C3 counterexample: the claim as stated expects a matcher accessor
pair for every variant of a two-variant enum (one unit, one
primitive-payload), but the generator emits matchers only for the
payload variant — the unit variant `A` gets none, so one pair is
emitted, not two. -/
theorem C3_counterexample :
    generate_c_extra_functions_for "Thing" [("A", none), ("B", some "u8")]
      = ["AzThing_matchRefB", "AzThing_matchMutB"] ∧
    claimed_matcher_pairs_per_variant "Thing" [("A", none), ("B", some "u8")] = false :=
  ⟨by rfl, by rfl⟩

/-- C3 (amended): an enum with no payload variant is emitted as a plain C
enumeration; an enum with at least one payload variant is emitted as a
discriminant tag enum plus one payload wrapper struct per variant, a
union with one member per variant, one construction macro per variant,
and one matchRef/matchMut accessor pair per PAYLOAD variant only (unit
variants get no matcher); in particular the two-variant enum emits two
wrapper structs but a single matcher pair. -/
theorem C3_c_enum_emission_amended :
    (∀ enum : List (String × Option String),
      enum_is_union enum = false ↔ ∀ v ∈ enum, v.2 = none) ∧
    (∀ (sn : String) (enum : List (String × Option String)), enum_is_union enum = false →
      generate_c_enum_decl sn enum = .plainEnum (enum.map (fun v => sn ++ "_" ++ v.1))) ∧
    (∀ (sn : String) (enum : List (String × Option String)), enum_is_union enum = true →
      ∃ tags vs um, generate_c_enum_decl sn enum = .taggedUnion tags vs um ∧
        tags.length = enum.length ∧ vs.length = enum.length ∧ um.length = enum.length) ∧
    (∀ (sn : String) (enum : List (String × Option String)),
      (generate_c_union_macro_names sn enum).length
        = if enum_is_union enum then enum.length else 0) ∧
    (∀ (cn : String) (enum : List (String × Option String)),
      (generate_c_extra_functions_for cn enum).length
        = if enum_is_union enum then 2 * enum.countP (fun v => v.2.isSome) else 0) ∧
    (∀ (cn vn t : String) (enum : List (String × Option String)), (vn, some t) ∈ enum →
      (azPfx ++ cn ++ "_matchRef" ++ vn) ∈ generate_c_extra_functions_for cn enum ∧
        (azPfx ++ cn ++ "_matchMut" ++ vn) ∈ generate_c_extra_functions_for cn enum) := by
  refine ⟨enum_is_union_eq_false_iff, ?_, ?_, ?_, ?_, ?_⟩
  · intro sn enum hu
    simp [generate_c_enum_decl, hu]
  · intro sn enum hu
    have hd : generate_c_enum_decl sn enum = .taggedUnion
        (enum.map (fun v => sn ++ "Tag_" ++ v.1))
        (enum.map (fun v => (sn ++ "Variant_" ++ v.1, v.2)))
        (enum.map (fun v => sn ++ "Variant_" ++ v.1)) := by
      simp [generate_c_enum_decl, hu]
    exact ⟨_, _, _, hd, by simp, by simp, by simp⟩
  · intro sn enum
    cases hu : enum_is_union enum with
    | true => simp [generate_c_union_macro_names, hu]
    | false => simp [generate_c_union_macro_names, hu]
  · intro cn enum
    cases hu : enum_is_union enum with
    | true => simp [generate_c_extra_functions_for, hu, c_matcher_names_length]
    | false => simp [generate_c_extra_functions_for, hu]
  · intro cn vn t enum hmem
    have hu := enum_is_union_of_payload enum vn t hmem
    have := c_matcher_names_mem cn enum vn t hmem
    simpa [generate_c_extra_functions_for, hu] using this

theorem C3_c_enum_emission_amended_witness :
    (∃ tags vs um,
      generate_c_enum_decl "AzThing" [("A", none), ("B", some "u8")] = .taggedUnion tags vs um ∧
        tags.length = 2 ∧ vs.length = 2 ∧ um.length = 2) ∧
    (generate_c_extra_functions_for "Thing" [("A", none), ("B", some "u8")]).length = 2 ∧
    "AzThing_matchRefB" ∈ generate_c_extra_functions_for "Thing" [("A", none), ("B", some "u8")] :=
  ⟨C3_c_enum_emission_amended.2.2.1 "AzThing" [("A", none), ("B", some "u8")] (by rfl),
   by rw [C3_c_enum_emission_amended.2.2.2.2.1 "Thing" [("A", none), ("B", some "u8")]]; rfl,
   (C3_c_enum_emission_amended.2.2.2.2.2 "Thing" "B" "u8" [("A", none), ("B", some "u8")]
      (by decide)).1⟩

/-!  ## Derive computation of `generate_structs` (claim C5, build.py 805-996) -/

/-- The four derive lines `generate_structs` can emit: Debug, Clone,
Copy, and the PartialEq/PartialOrd pair (`opt_derive_other`).  `true`
means the line is emitted. -/
structure DeriveFlags where
  debug : Bool
  clone : Bool
  copy : Bool
  other : Bool
  deriving DecidableEq

/-- The per-member scan of `generate_structs` (build.py 864-875 for
struct fields, 958-971 for enum variants): clears the Debug and
PartialEq/PartialOrd derives when a member's class is a truthy callback
typedef.  The error models the print-then-crash on an unresolvable
member type. -/
def fields_suppress_fnptr (api : ApiData) :
    List (String × Option String) → DeriveFlags → Except String DeriveFlags
  | [], fl => .ok fl
  | (_, none) :: rest, fl => fields_suppress_fnptr api rest fl
  | (_, some ty) :: rest, fl =>
    match analyze_type ty with
    | none => .error "IndexError: list index out of range"
    | some (_, base, _) =>
      if is_primitive_arg base then fields_suppress_fnptr api rest fl
      else
        match search_for_class_by_class_name api base with
        | none => .error ("no field_type_class_path found for " ++ base)
        | some (m, cn) =>
          match get_class api m cn with
          | none => .error "KeyError"
          | some fc =>
            if classdef_callback_truthy fc then
              fields_suppress_fnptr api rest { fl with debug := false, other := false }
            else fields_suppress_fnptr api rest fl

/-- The initial derive lines (build.py 841-850 / 935-944): all four are
on unless `no_derive` cleared them. -/
def derive_base (no_derive : Bool) : DeriveFlags :=
  if no_derive then ⟨false, false, false, false⟩ else ⟨true, true, true, true⟩

/-- Build.py 852-853 / 946-947: Copy is pruned unless declared. -/
def derive_prune_copy (class_can_be_copied : Bool) (d : DeriveFlags) : DeriveFlags :=
  if !class_can_be_copied then { d with copy := false } else d

/-- Build.py 855-856 / 949-950: Clone is pruned when the class cannot be
cloned or is an external boxed pointer (which gets `deepCopy` instead). -/
def derive_prune_clone (class_can_be_cloned treat_external_as_ptr : Bool)
    (d : DeriveFlags) : DeriveFlags :=
  if !class_can_be_cloned || (treat_external_as_ptr && class_can_be_cloned) then
    { d with clone := false }
  else d

/-- Build.py 858-862 / 952-956: a custom destructor (or `autoderive`
off, or the hardcoded `AzU8VecRef` case) clears every derive line. -/
def derive_prune_all (cond : Bool) (d : DeriveFlags) : DeriveFlags :=
  if cond then ⟨false, false, false, false⟩ else d

/-- The derive lines emitted by `generate_structs` for one structs-map
entry (build.py 823-875 and 925-971): `none` when the entry emits no
derive lines at all (callback typedefs and entries that are neither
struct nor enum). -/
def generate_structs_derive_flags (api : ApiData) (autoderive no_derive : Bool)
    (struct_name : String) (s : StructEntry) : Except String (Option DeriveFlags) :=
  let class_can_be_copied := memb "Copy" s.derive
  let class_can_be_cloned := match s.clone with | some b => b | none => true
  let treat_external_as_ptr := s.external.isSome && s.is_boxed_object
  if entry_is_callback_typedef s then .ok none
  else
    match s.struct with
    | some fields =>
      match fields_suppress_fnptr api fields
          (derive_prune_all
            (s.custom_destructor || !autoderive || decide (struct_name = "AzU8VecRef"))
            (derive_prune_clone class_can_be_cloned treat_external_as_ptr
              (derive_prune_copy class_can_be_copied (derive_base no_derive)))) with
      | .error e => .error e
      | .ok fl => .ok (some fl)
    | none =>
      match s.enum with
      | some variants =>
        match fields_suppress_fnptr api variants
            (derive_prune_all (s.custom_destructor || !autoderive)
              (derive_prune_clone class_can_be_cloned treat_external_as_ptr
                (derive_prune_copy class_can_be_copied (derive_base no_derive)))) with
        | .error e => .error e
        | .ok fl => .ok (some fl)
      | none => .ok none

/-- One member's class is a truthy callback typedef. -/
def member_is_fnptr (api : ApiData) (m : String × Option String) : Bool :=
  match m.2 with
  | none => false
  | some ty =>
    match analyze_type ty with
    | none => false
    | some (_, base, _) =>
      if is_primitive_arg base then false
      else
        match search_for_class_by_class_name api base with
        | none => false
        | some (mn, cn) =>
          match get_class api mn cn with
          | none => false
          | some fc => classdef_callback_truthy fc

/-- Some field (or enum variant payload) of the entry has a
callback-typedef class. -/
def has_fnptr_member (api : ApiData) (s : StructEntry) : Bool :=
  if entry_is_callback_typedef s then false
  else
    match s.struct with
    | some fields => fields.any (member_is_fnptr api)
    | none =>
      match s.enum with
      | some variants => variants.any (member_is_fnptr api)
      | none => false

/-- The member scan never touches Clone or Copy, and can only clear
Debug and the PartialEq/PartialOrd pair. -/
theorem fields_suppress_shape (api : ApiData) :
    ∀ (l : List (String × Option String)) (fl fl' : DeriveFlags),
      fields_suppress_fnptr api l fl = .ok fl' →
      fl'.clone = fl.clone ∧ fl'.copy = fl.copy ∧
        (fl'.debug = fl.debug ∨ fl'.debug = false) ∧
        (fl'.other = fl.other ∨ fl'.other = false) := by
  intro l
  induction l with
  | nil =>
    intro fl fl' h
    simp only [fields_suppress_fnptr] at h
    cases h
    exact ⟨rfl, rfl, Or.inl rfl, Or.inl rfl⟩
  | cons m rest ih =>
    intro fl fl' h
    obtain ⟨mn, mty⟩ := m
    cases mty with
    | none =>
      simp only [fields_suppress_fnptr] at h
      exact ih fl fl' h
    | some ty =>
      cases han : analyze_type ty with
      | none =>
        simp only [fields_suppress_fnptr, han] at h
        exact Except.noConfusion h
      | some trip =>
        obtain ⟨st, base, en⟩ := trip
        by_cases hprim : is_primitive_arg base = true
        · simp only [fields_suppress_fnptr, han, hprim, if_true] at h
          exact ih fl fl' h
        · rw [Bool.not_eq_true] at hprim
          cases hsr : search_for_class_by_class_name api base with
          | none =>
            simp only [fields_suppress_fnptr, han, hprim, Bool.false_eq_true, if_false, hsr] at h
            exact Except.noConfusion h
          | some path =>
            obtain ⟨pm, pc⟩ := path
            cases hgc : get_class api pm pc with
            | none =>
              simp only [fields_suppress_fnptr, han, hprim, Bool.false_eq_true, if_false,
                hsr, hgc] at h
              exact Except.noConfusion h
            | some fc =>
              by_cases htr : classdef_callback_truthy fc = true
              · simp only [fields_suppress_fnptr, han, hprim, Bool.false_eq_true, if_false,
                  hsr, hgc, htr, if_true] at h
                obtain ⟨h1, h2, h3, h4⟩ := ih _ fl' h
                refine ⟨h1, h2, Or.inr ?_, Or.inr ?_⟩
                · rcases h3 with hh | hh <;> exact hh
                · rcases h4 with hh | hh <;> exact hh
              · rw [Bool.not_eq_true] at htr
                simp only [fields_suppress_fnptr, han, hprim, Bool.false_eq_true, if_false,
                  hsr, hgc, htr] at h
                exact ih fl fl' h

/-- If some member is a callback typedef, the scan clears Debug and
PartialEq/PartialOrd. -/
theorem fields_suppress_fnptr_clears (api : ApiData) :
    ∀ (l : List (String × Option String)) (fl fl' : DeriveFlags),
      l.any (member_is_fnptr api) = true →
      fields_suppress_fnptr api l fl = .ok fl' →
      fl'.debug = false ∧ fl'.other = false := by
  intro l
  induction l with
  | nil =>
    intro fl fl' hany _
    simp at hany
  | cons m rest ih =>
    intro fl fl' hany h
    obtain ⟨mn, mty⟩ := m
    rw [List.any_cons] at hany
    by_cases hhead : member_is_fnptr api (mn, mty) = true
    · cases mty with
      | none => simp [member_is_fnptr] at hhead
      | some ty =>
        cases han : analyze_type ty with
        | none => simp [member_is_fnptr, han] at hhead
        | some trip =>
          obtain ⟨st, base, en⟩ := trip
          by_cases hprim : is_primitive_arg base = true
          · simp [member_is_fnptr, han, hprim] at hhead
          · rw [Bool.not_eq_true] at hprim
            cases hsr : search_for_class_by_class_name api base with
            | none => simp [member_is_fnptr, han, hprim, hsr] at hhead
            | some path =>
              obtain ⟨pm, pc⟩ := path
              cases hgc : get_class api pm pc with
              | none => simp [member_is_fnptr, han, hprim, hsr, hgc] at hhead
              | some fc =>
                have htr : classdef_callback_truthy fc = true := by
                  simpa [member_is_fnptr, han, hprim, hsr, hgc] using hhead
                simp only [fields_suppress_fnptr, han, hprim, Bool.false_eq_true, if_false,
                  hsr, hgc, htr, if_true] at h
                obtain ⟨_, _, h3, h4⟩ := fields_suppress_shape api rest _ fl' h
                constructor
                · rcases h3 with hh | hh <;> exact hh
                · rcases h4 with hh | hh <;> exact hh
    · have hrest : rest.any (member_is_fnptr api) = true := by
        rcases Bool.or_eq_true_iff.mp hany with hh | hh
        · exact absurd hh hhead
        · exact hh
      cases mty with
      | none =>
        simp only [fields_suppress_fnptr] at h
        exact ih fl fl' hrest h
      | some ty =>
        cases han : analyze_type ty with
        | none =>
          simp only [fields_suppress_fnptr, han] at h
          exact Except.noConfusion h
        | some trip =>
          obtain ⟨st, base, en⟩ := trip
          by_cases hprim : is_primitive_arg base = true
          · simp only [fields_suppress_fnptr, han, hprim, if_true] at h
            exact ih fl fl' hrest h
          · rw [Bool.not_eq_true] at hprim
            cases hsr : search_for_class_by_class_name api base with
            | none =>
              simp only [fields_suppress_fnptr, han, hprim, Bool.false_eq_true, if_false,
                hsr] at h
              exact Except.noConfusion h
            | some path =>
              obtain ⟨pm, pc⟩ := path
              cases hgc : get_class api pm pc with
              | none =>
                simp only [fields_suppress_fnptr, han, hprim, Bool.false_eq_true, if_false,
                  hsr, hgc] at h
                exact Except.noConfusion h
              | some fc =>
                by_cases htr : classdef_callback_truthy fc = true
                · simp only [fields_suppress_fnptr, han, hprim, Bool.false_eq_true, if_false,
                    hsr, hgc, htr, if_true] at h
                  exact ih _ fl' hrest h
                · rw [Bool.not_eq_true] at htr
                  simp only [fields_suppress_fnptr, han, hprim, Bool.false_eq_true, if_false,
                    hsr, hgc, htr] at h
                  exact ih fl fl' hrest h

theorem derive_prune_all_of_true (c : Bool) (d : DeriveFlags) (hc : c = true) :
    derive_prune_all c d = ⟨false, false, false, false⟩ := by
  simp [derive_prune_all, hc]

theorem derive_prune_all_clone (c : Bool) (d : DeriveFlags) (hd : d.clone = false) :
    (derive_prune_all c d).clone = false := by
  cases c <;> simp [derive_prune_all, hd]

theorem derive_prune_clone_clone (can text : Bool) (d : DeriveFlags) (ht : text = true) :
    (derive_prune_clone can text d).clone = false := by
  subst ht
  cases can <;> simp [derive_prune_clone]

theorem fields_suppress_from_false (api : ApiData) (l : List (String × Option String))
    (fl' : DeriveFlags)
    (h : fields_suppress_fnptr api l ⟨false, false, false, false⟩ = .ok fl') :
    fl' = ⟨false, false, false, false⟩ := by
  obtain ⟨h1, h2, h3, h4⟩ := fields_suppress_shape api l _ fl' h
  rcases fl' with ⟨a, b, c, d⟩
  have ha : a = false := by rcases h3 with hh | hh <;> simpa using hh
  have hd : d = false := by rcases h4 with hh | hh <;> simpa using hh
  have hb : b = false := by simpa using h1
  have hc : c = false := by simpa using h2
  subst ha
  subst hb
  subst hc
  subst hd
  rfl

/-- C5: the derive lines emitted by `generate_structs` are pruned from
the declared set as claimed: a custom destructor suppresses Debug,
Clone, Copy, PartialEq and PartialOrd entirely; a field (or enum variant
payload) whose class is a callback typedef suppresses Debug and
PartialEq/PartialOrd (Ord and Hash are never among the emitted derive
lines at all, so their suppression is vacuous); an entry treated as an
external boxed pointer has its derived Clone suppressed (it receives the
hand-written `deepCopy` instead). -/
theorem C5_generate_structs_derives (api : ApiData) (ad nd : Bool) (sn : String)
    (s : StructEntry) (fl : DeriveFlags)
    (h : generate_structs_derive_flags api ad nd sn s = .ok (some fl)) :
    (s.custom_destructor = true → fl = ⟨false, false, false, false⟩) ∧
    (has_fnptr_member api s = true → fl.debug = false ∧ fl.other = false) ∧
    ((s.external.isSome && s.is_boxed_object) = true → fl.clone = false) := by
  simp only [generate_structs_derive_flags] at h
  split at h
  · simp at h
  rename_i hcb
  split at h
  case _ fields hst =>
    split at h
    · simp at h
    rename_i fl0 hf
    have hfl : fl0 = fl := by simpa using h
    subst hfl
    refine ⟨?_, ?_, ?_⟩
    · intro hc
      rw [derive_prune_all_of_true _ _ (by simp [hc])] at hf
      exact fields_suppress_from_false api fields fl0 hf
    · intro hfp
      have hany : fields.any (member_is_fnptr api) = true := by
        unfold has_fnptr_member at hfp
        rw [Bool.not_eq_true] at hcb
        rw [hcb] at hfp
        simpa [hst] using hfp
      exact fields_suppress_fnptr_clears api fields _ fl0 hany hf
    · intro htx
      obtain ⟨h1, _, _, _⟩ := fields_suppress_shape api fields _ fl0 hf
      rw [h1]
      exact derive_prune_all_clone _ _ (derive_prune_clone_clone _ _ _ htx)
  case _ hst =>
    split at h
    case _ variants hen =>
      split at h
      · simp at h
      rename_i fl0 hf
      have hfl : fl0 = fl := by simpa using h
      subst hfl
      refine ⟨?_, ?_, ?_⟩
      · intro hc
        rw [derive_prune_all_of_true _ _ (by simp [hc])] at hf
        exact fields_suppress_from_false api variants fl0 hf
      · intro hfp
        have hany : variants.any (member_is_fnptr api) = true := by
          unfold has_fnptr_member at hfp
          rw [Bool.not_eq_true] at hcb
          rw [hcb] at hfp
          simpa [hst, hen] using hfp
        exact fields_suppress_fnptr_clears api variants _ fl0 hany hf
      · intro htx
        obtain ⟨h1, _, _, _⟩ := fields_suppress_shape api variants _ fl0 hf
        rw [h1]
        exact derive_prune_all_clone _ _ (derive_prune_clone_clone _ _ _ htx)
    case _ hen =>
      simp at h

/-- A class with a custom destructor, a callback-typedef field and
external boxed-pointer treatment, exercising all three prunings. -/
def apiW : ApiData :=
  [("m", [("MyCb", { callback_typedef := some 2 }),
          ("W", { struct_fields := some [("cb", some "MyCb")] })])]

def entryW : StructEntry :=
  { struct := some [("cb", some "MyCb")], external := some "azul_impl::W",
    is_boxed_object := true, custom_destructor := true, derive := ["Copy"] }

theorem C5_generate_structs_derives_witness :
    (⟨false, false, false, false⟩ : DeriveFlags) = ⟨false, false, false, false⟩ ∧
    ((⟨false, false, false, false⟩ : DeriveFlags).debug = false ∧
      (⟨false, false, false, false⟩ : DeriveFlags).other = false) ∧
    (⟨false, false, false, false⟩ : DeriveFlags).clone = false :=
  have hthm := C5_generate_structs_derives apiW true false "AzW" entryW
    ⟨false, false, false, false⟩ (by rfl)
  ⟨hthm.1 (by rfl), hthm.2.1 (by rfl), hthm.2.2 (by rfl)⟩

/-!  ## Determinism of emission order (claim C6)

The embedding is a pure function of the schema, so every embedded
generator trivially produces identical output on identical input.  The
one construct in the pipeline whose evaluation order depends on the
Python execution (rather than on the schema) is the iteration over the
per-module import *set* in `get_all_imports` (build.py 150-165) — sets
iterate in a hash-dependent order.  The lemma below shows that the
emitted `use` string does not depend on that order. -/

/-- The `use_str` computation of `get_all_imports` (build.py 153-163):
a single imported class is emitted directly; several are sorted and
joined inside braces.  `classes` is the set in iteration order. -/
def imports_use_str (classes : List String) : String :=
  if classes.length = 1 then classes.headD ""
  else
    pyDropRight
      ((List.insertionSort (fun a b : String => a ≤ b) classes).foldl
        (fun acc c => acc ++ c ++ ", ") "\x7b") 2 ++ "\x7d"

/-- C6: the emitted import string is invariant under permutation of the
set-iteration order, so — the embedding being a pure function of the
schema everywhere else — a fixed schema always produces the same output. -/
theorem C6_imports_order_independent (l1 l2 : List String) (hperm : l1.Perm l2) :
    imports_use_str l1 = imports_use_str l2 := by
  unfold imports_use_str
  have hlen := hperm.length_eq
  by_cases h1 : l1.length = 1
  · rw [if_pos h1, if_pos (hlen ▸ h1)]
    match l1, h1 with
    | [a], _ =>
      have : l2 = [a] := List.perm_singleton.mp hperm.symm
      rw [this]
  · rw [if_neg h1, if_neg (by rw [← hlen]; exact h1)]
    have hsorteq : List.insertionSort (fun a b : String => a ≤ b) l1
        = List.insertionSort (fun a b : String => a ≤ b) l2 := by
      refine List.eq_of_perm_of_sorted ?_ (List.sorted_insertionSort _ l1)
        (List.sorted_insertionSort _ l2)
      exact (List.perm_insertionSort _ l1).trans
        (hperm.trans (List.perm_insertionSort _ l2).symm)
    rw [hsorteq]

theorem C6_imports_order_independent_witness :
    imports_use_str ["dom", "css"] = imports_use_str ["css", "dom"] :=
  C6_imports_order_independent ["dom", "css"] ["css", "dom"] (by decide)

/-!  ## Name resolution failures are fatal (claim C7) -/

/-- A function definition as consumed by `fn_args_c_api`: the ordered
`fn_args` list maps argument name to its type string (for the implicit
receiver the name is `"self"` and the value its passing convention). -/
structure FnDef where
  fn_args : Option (List (String × String)) := none
  deriving DecidableEq

/-- A type string resolves: it analyzes, and its base is primitive or
has a class in the catalog. -/
def arg_resolves (api : ApiData) (ty : String) : Bool :=
  match analyze_type ty with
  | none => false
  | some (_, base, _) =>
    is_primitive_arg base || (search_for_class_by_class_name api base).isSome

/-- The argument loop of `fn_args_c_api` (build.py 185-205): primitive
args pass through, non-primitive args are resolved and `Az`-prefixed,
and an unresolvable name raises `type not found`. -/
def fn_args_c_api_loop (api : ApiData) : String → List (String × String) → Except String String
  | acc, [] => .ok acc
  | acc, (arg_name, arg_ty) :: rest =>
    if arg_name = "self" then fn_args_c_api_loop api acc rest
    else
      match analyze_type arg_ty with
      | none => .error "IndexError: list index out of range"
      | some (ptr_type, base, _) =>
        if is_primitive_arg base then
          fn_args_c_api_loop api (acc ++ arg_name ++ ": " ++ ptr_type ++ base ++ ", ") rest
        else
          match search_for_class_by_class_name api base with
          | none => .error ("type not found: " ++ base)
          | some (_, cn) =>
            fn_args_c_api_loop api
              (acc ++ arg_name ++ ": " ++ ptr_type ++ azPfx ++ cn ++ ", ") rest

/-- `fn_args_c_api` from build.py 169-207. -/
def fn_args_c_api (f : FnDef) (class_name class_ptr_name : String)
    (self_as_first_arg : Bool) (api : ApiData) : Except String String :=
  match (if self_as_first_arg then
      match f.fn_args with
      | none => Except.error "KeyError: fn_args"
      | some [] => Except.error "IndexError: list index out of range"
      | some ((_, self_val) :: _) =>
        if self_val = "value" then
          Except.ok (pyLower class_name ++ ": " ++ class_ptr_name ++ ", ")
        else if self_val = "mut value" then
          Except.ok ("mut " ++ pyLower class_name ++ ": " ++ class_ptr_name ++ ", ")
        else if self_val = "refmut" then
          Except.ok (pyLower class_name ++ ": &mut " ++ class_ptr_name ++ ", ")
        else if self_val = "ref" then
          Except.ok (pyLower class_name ++ ": &" ++ class_ptr_name ++ ", ")
        else Except.error ("wrong self value " ++ self_val ++ " " ++ class_name)
    else Except.ok "") with
  | .error e => .error e
  | .ok start =>
    match f.fn_args with
    | none => .ok start
    | some args =>
      match fn_args_c_api_loop api start args with
      | .error e => .error e
      | .ok s => .ok (pyDropRight s 2)

/-- The return-type computation shared by the constructor loop of
`generate_rust_dll` (build.py 566-577) and its function loop (601-612):
with no declared `returns` key the default applies (`class_ptr_name` for
constructors, the empty string for functions); a declared primitive
return type passes through unchanged; a resolvable class reference is
rebuilt as `starts ++ Az-prefixed class ++ ends`; an unresolvable name
prints its diagnostic and then crashes subscripting `None` at
`return_type_class[1]`, modelled as the error carrying the printed
message. -/
def fn_returns_c_api (api : ApiData) (dflt : String) (returns : Option String) :
    Except String String :=
  match returns with
  | none => .ok dflt
  | some return_type =>
    match analyze_type return_type with
    | none => .error "IndexError: list index out of range"
    | some (starts, base, ends) =>
      if is_primitive_arg base then .ok return_type
      else
        match search_for_class_by_class_name api base with
        | none =>
          .error ("rust-dll: (line 549): no return_type_class found for " ++ return_type)
        | some (_, cn) => .ok (starts ++ azPfx ++ cn ++ ends)

theorem fn_args_loop_ok_resolves (api : ApiData) :
    ∀ (args : List (String × String)) (acc out : String),
      fn_args_c_api_loop api acc args = .ok out →
      args.all (fun a => a.1 = "self" || arg_resolves api a.2) = true := by
  intro args
  induction args with
  | nil => intro acc out _; rfl
  | cons a rest ih =>
    intro acc out h
    obtain ⟨an, ty⟩ := a
    rw [List.all_cons]
    by_cases hself : an = "self"
    · simp only [fn_args_c_api_loop] at h
      rw [if_pos hself] at h
      rw [Bool.and_eq_true]
      refine ⟨by simp [hself], ih _ _ h⟩
    · cases han : analyze_type ty with
      | none => simp [fn_args_c_api_loop, if_neg hself, han] at h
      | some trip =>
        obtain ⟨pt, base, en⟩ := trip
        by_cases hprim : is_primitive_arg base = true
        · simp [fn_args_c_api_loop, if_neg hself, han, hprim] at h
          rw [Bool.and_eq_true]
          refine ⟨by simp [arg_resolves, han, hprim], ih _ _ h⟩
        · cases hsr : search_for_class_by_class_name api base with
          | none => simp [fn_args_c_api_loop, if_neg hself, han, hprim, hsr] at h
          | some path =>
            obtain ⟨pm, pc⟩ := path
            simp [fn_args_c_api_loop, if_neg hself, han, hprim, hsr] at h
            rw [Bool.and_eq_true]
            refine ⟨by simp [arg_resolves, han, hprim, hsr], ih _ _ h⟩

theorem fn_args_loop_append (api : ApiData) :
    ∀ (pre : List (String × String)) (acc : String),
      pre.all (fun a => a.1 = "self" || arg_resolves api a.2) = true →
      ∃ acc2, ∀ post, fn_args_c_api_loop api acc (pre ++ post)
        = fn_args_c_api_loop api acc2 post := by
  intro pre
  induction pre with
  | nil => intro acc _; exact ⟨acc, fun _ => rfl⟩
  | cons a rest ih =>
    intro acc hall
    obtain ⟨an, ty⟩ := a
    rw [List.all_cons] at hall
    have hhead := (Bool.and_eq_true _ _).mp hall |>.1
    have hrest := (Bool.and_eq_true _ _).mp hall |>.2
    by_cases hself : an = "self"
    · obtain ⟨acc2, h2⟩ := ih acc hrest
      refine ⟨acc2, fun post => ?_⟩
      rw [List.cons_append]
      simp only [fn_args_c_api_loop, hself, reduceIte]
      exact h2 post
    · have hres : arg_resolves api ty = true := by
        rcases Bool.or_eq_true_iff.mp hhead with hh | hh
        · exact absurd (by simpa using hh) hself
        · exact hh
      cases han : analyze_type ty with
      | none => simp [arg_resolves, han] at hres
      | some trip =>
        obtain ⟨pt, base, en⟩ := trip
        by_cases hprim : is_primitive_arg base = true
        · obtain ⟨acc2, h2⟩ := ih (acc ++ an ++ ": " ++ pt ++ base ++ ", ") hrest
          refine ⟨acc2, fun post => ?_⟩
          rw [List.cons_append]
          simp only [fn_args_c_api_loop, if_neg hself, han, hprim, if_true]
          exact h2 post
        · rw [Bool.not_eq_true] at hprim
          cases hsr : search_for_class_by_class_name api base with
          | none => simp [arg_resolves, han, hprim, hsr] at hres
          | some path =>
            obtain ⟨pm, pc⟩ := path
            obtain ⟨acc2, h2⟩ := ih (acc ++ an ++ ": " ++ pt ++ azPfx ++ pc ++ ", ") hrest
            refine ⟨acc2, fun post => ?_⟩
            rw [List.cons_append]
            simp only [fn_args_c_api_loop, if_neg hself, han, hprim, Bool.false_eq_true,
              if_false, hsr]
            exact h2 post

theorem fields_suppress_ok_resolves (api : ApiData) :
    ∀ (l : List (String × Option String)) (fl fl' : DeriveFlags),
      fields_suppress_fnptr api l fl = .ok fl' →
      l.all (fun m => match m.2 with | none => true | some ty => arg_resolves api ty)
        = true := by
  intro l
  induction l with
  | nil => intro fl fl' _; rfl
  | cons m rest ih =>
    intro fl fl' h
    obtain ⟨mn, mty⟩ := m
    rw [List.all_cons]
    cases mty with
    | none =>
      simp only [fields_suppress_fnptr] at h
      rw [Bool.and_eq_true]
      exact ⟨rfl, ih _ _ h⟩
    | some ty =>
      cases han : analyze_type ty with
      | none =>
        simp only [fields_suppress_fnptr, han] at h
        exact Except.noConfusion h
      | some trip =>
        obtain ⟨st, base, en⟩ := trip
        by_cases hprim : is_primitive_arg base = true
        · simp only [fields_suppress_fnptr, han, hprim, if_true] at h
          rw [Bool.and_eq_true]
          refine ⟨by simp [arg_resolves, han, hprim], ih _ _ h⟩
        · rw [Bool.not_eq_true] at hprim
          cases hsr : search_for_class_by_class_name api base with
          | none =>
            simp only [fields_suppress_fnptr, han, hprim, Bool.false_eq_true, if_false,
              hsr] at h
            exact Except.noConfusion h
          | some path =>
            obtain ⟨pm, pc⟩ := path
            cases hgc : get_class api pm pc with
            | none =>
              simp only [fields_suppress_fnptr, han, hprim, Bool.false_eq_true, if_false,
                hsr, hgc] at h
              exact Except.noConfusion h
            | some fc =>
              by_cases htr : classdef_callback_truthy fc = true
              · simp only [fields_suppress_fnptr, han, hprim, Bool.false_eq_true, if_false,
                  hsr, hgc, htr, if_true] at h
                rw [Bool.and_eq_true]
                refine ⟨by simp [arg_resolves, han, hprim, hsr], ih _ _ h⟩
              · rw [Bool.not_eq_true] at htr
                simp only [fields_suppress_fnptr, han, hprim, Bool.false_eq_true, if_false,
                  hsr, hgc, htr] at h
                rw [Bool.and_eq_true]
                refine ⟨by simp [arg_resolves, han, hprim, hsr], ih _ _ h⟩

/-- C7: name resolution failures are fatal and never silently skipped —
(1) if `fn_args_c_api` succeeds, every non-self argument type resolved;
(2) when the argument scan reaches a non-primitive argument whose base
name has no class, the run fails with the `type not found` error naming
that reference; (3) if the return-type computation of the constructor
and function loops succeeds on a declared return type, that type
resolved; (4) a declared non-primitive return type whose base has no
class fails with the diagnostic naming the full reference; (5) if the
struct emission of `generate_structs` succeeds, every typed field of
the struct resolved; (6) if the enum emission of `generate_structs`
succeeds, every typed variant payload resolved. -/
theorem C7_unresolvable_names_fatal (api : ApiData) :
    (∀ (f : FnDef) (cn cpn : String) (sf : Bool) (out : String) (args : List (String × String)),
      fn_args_c_api f cn cpn sf api = .ok out → f.fn_args = some args →
      args.all (fun a => a.1 = "self" || arg_resolves api a.2) = true) ∧
    (∀ (f : FnDef) (cn cpn : String) (pre post : List (String × String))
        (name ty p b e2 : String),
      f.fn_args = some (pre ++ (name, ty) :: post) →
      pre.all (fun a => a.1 = "self" || arg_resolves api a.2) = true →
      ¬(name = "self") →
      analyze_type ty = some (p, b, e2) → is_primitive_arg b = false →
      search_for_class_by_class_name api b = none →
      fn_args_c_api f cn cpn false api = .error ("type not found: " ++ b)) ∧
    (∀ (dflt rt out : String),
      fn_returns_c_api api dflt (some rt) = .ok out → arg_resolves api rt = true) ∧
    (∀ (dflt rt p b e2 : String),
      analyze_type rt = some (p, b, e2) → is_primitive_arg b = false →
      search_for_class_by_class_name api b = none →
      fn_returns_c_api api dflt (some rt)
        = .error ("rust-dll: (line 549): no return_type_class found for " ++ rt)) ∧
    (∀ (ad nd : Bool) (sn : String) (s : StructEntry) (r : Option DeriveFlags)
        (fields : List (String × Option String)),
      generate_structs_derive_flags api ad nd sn s = .ok r → s.struct = some fields →
      entry_is_callback_typedef s = false →
      fields.all (fun m => match m.2 with | none => true | some ty => arg_resolves api ty)
        = true) ∧
    (∀ (ad nd : Bool) (sn : String) (s : StructEntry) (r : Option DeriveFlags)
        (variants : List (String × Option String)),
      generate_structs_derive_flags api ad nd sn s = .ok r → s.struct = none →
      s.enum = some variants →
      entry_is_callback_typedef s = false →
      variants.all (fun m => match m.2 with | none => true | some ty => arg_resolves api ty)
        = true) := by
  refine ⟨?_, ?_, ?_, ?_, ?_, ?_⟩
  · intro f cn cpn sf out args h hargs
    unfold fn_args_c_api at h
    split at h
    · exact Except.noConfusion h
    rename_i start hstart
    rw [hargs] at h
    have h2 : (match fn_args_c_api_loop api start args with
        | Except.error e => Except.error e
        | Except.ok s => Except.ok (pyDropRight s 2)) = Except.ok out := h
    cases hl : fn_args_c_api_loop api start args with
    | error e =>
      rw [hl] at h2
      exact Except.noConfusion h2
    | ok s2 => exact fn_args_loop_ok_resolves api args start s2 hl
  · intro f cn cpn pre post name ty p b e2 hargs hpre hself han hprim hsr
    unfold fn_args_c_api
    rw [hargs]
    show (match fn_args_c_api_loop api "" (pre ++ (name, ty) :: post) with
      | Except.error e => Except.error e
      | Except.ok s => Except.ok (pyDropRight s 2)) = _
    obtain ⟨acc2, h2⟩ := fn_args_loop_append api pre "" hpre
    rw [h2 ((name, ty) :: post)]
    simp only [fn_args_c_api_loop, if_neg hself, han, hprim, Bool.false_eq_true,
      if_false, hsr]
  · intro dflt rt out h
    cases han : analyze_type rt with
    | none => simp [fn_returns_c_api, han] at h
    | some trip =>
      obtain ⟨p, b, e2⟩ := trip
      by_cases hprim : is_primitive_arg b = true
      · simp [arg_resolves, han, hprim]
      · rw [Bool.not_eq_true] at hprim
        cases hsr : search_for_class_by_class_name api b with
        | none => simp [fn_returns_c_api, han, hprim, hsr] at h
        | some path => simp [arg_resolves, han, hprim, hsr]
  · intro dflt rt p b e2 han hprim hsr
    simp [fn_returns_c_api, han, hprim, hsr]
  · intro ad nd sn s r fields h hst hcb
    unfold generate_structs_derive_flags at h
    rw [hcb] at h
    simp only [Bool.false_eq_true, if_false] at h
    rw [hst] at h
    have h2 : (match fields_suppress_fnptr api fields
        (derive_prune_all
          (s.custom_destructor || !ad || decide (sn = "AzU8VecRef"))
          (derive_prune_clone (match s.clone with | some b => b | none => true)
            (s.external.isSome && s.is_boxed_object)
            (derive_prune_copy (memb "Copy" s.derive) (derive_base nd)))) with
      | Except.error e => Except.error e
      | Except.ok fl => Except.ok (some fl)) = Except.ok r := h
    cases hf : fields_suppress_fnptr api fields
        (derive_prune_all
          (s.custom_destructor || !ad || decide (sn = "AzU8VecRef"))
          (derive_prune_clone (match s.clone with | some b => b | none => true)
            (s.external.isSome && s.is_boxed_object)
            (derive_prune_copy (memb "Copy" s.derive) (derive_base nd)))) with
    | error e =>
      rw [hf] at h2
      exact Except.noConfusion h2
    | ok fl =>
      exact fields_suppress_ok_resolves api fields _ fl hf
  · intro ad nd sn s r variants h hstn hen hcb
    unfold generate_structs_derive_flags at h
    rw [hcb] at h
    simp only [Bool.false_eq_true, if_false] at h
    rw [hstn] at h
    rw [hen] at h
    have h2 : (match fields_suppress_fnptr api variants
        (derive_prune_all (s.custom_destructor || !ad)
          (derive_prune_clone (match s.clone with | some b => b | none => true)
            (s.external.isSome && s.is_boxed_object)
            (derive_prune_copy (memb "Copy" s.derive) (derive_base nd)))) with
      | Except.error e => Except.error e
      | Except.ok fl => Except.ok (some fl)) = Except.ok r := h
    cases hf : fields_suppress_fnptr api variants
        (derive_prune_all (s.custom_destructor || !ad)
          (derive_prune_clone (match s.clone with | some b => b | none => true)
            (s.external.isSome && s.is_boxed_object)
            (derive_prune_copy (memb "Copy" s.derive) (derive_base nd)))) with
    | error e =>
      rw [hf] at h2
      exact Except.noConfusion h2
    | ok fl =>
      exact fields_suppress_ok_resolves api variants _ fl hf

def apiFn : ApiData := [("dom", [("Dom", { struct_fields := some [("x", some "u8")] })])]

/-- An enum structs-map entry whose payload variant references the
callback typedef of `apiW`, exercising the enum branch of
`generate_structs_derive_flags`. -/
def entryWE : StructEntry := { enum := some [("A", none), ("B", some "MyCb")] }

theorem C7_unresolvable_names_fatal_witness :
    ([("a", "u8"), ("b", "Dom")] : List (String × String)).all
      (fun a => a.1 = "self" || arg_resolves apiFn a.2) = true ∧
    fn_args_c_api { fn_args := some [("a", "Missing")] } "Dom" "AzDom" false apiFn
      = .error ("type not found: " ++ "Missing") ∧
    arg_resolves apiFn "Dom" = true ∧
    fn_returns_c_api apiFn "" (some "Missing")
      = .error ("rust-dll: (line 549): no return_type_class found for " ++ "Missing") ∧
    ([("cb", some "MyCb")] : List (String × Option String)).all
      (fun m => match m.2 with | none => true | some ty => arg_resolves apiW ty) = true ∧
    ([("A", none), ("B", some "MyCb")] : List (String × Option String)).all
      (fun m => match m.2 with | none => true | some ty => arg_resolves apiW ty) = true :=
  ⟨(C7_unresolvable_names_fatal apiFn).1
      { fn_args := some [("a", "u8"), ("b", "Dom")] } "Dom" "AzDom" false
      "a: u8, b: AzDom" [("a", "u8"), ("b", "Dom")] (by rfl) rfl,
   (C7_unresolvable_names_fatal apiFn).2.1
      { fn_args := some [("a", "Missing")] } "Dom" "AzDom" [] [] "a" "Missing" "" "Missing" ""
      rfl rfl (by decide) (by rfl) (by rfl) (by rfl),
   (C7_unresolvable_names_fatal apiFn).2.2.1 "" "Dom" ("" ++ azPfx ++ "Dom" ++ "") (by rfl),
   (C7_unresolvable_names_fatal apiFn).2.2.2.1 "" "Missing" "" "Missing" ""
      (by rfl) (by rfl) (by rfl),
   (C7_unresolvable_names_fatal apiW).2.2.2.2.1 true false "AzW" entryW
      (some ⟨false, false, false, false⟩) [("cb", some "MyCb")] (by rfl) rfl rfl,
   (C7_unresolvable_names_fatal apiW).2.2.2.2.2 true false "AzWE" entryWE
      (some ⟨false, true, false, false⟩) [("A", none), ("B", some "MyCb")]
      (by rfl) rfl rfl rfl⟩

/-!  ## Python backend enum wrappers (claim C9, build.py 1540-1626) -/

/-- `quick_get_class` from build.py 297-306: both failure points raise
with the same message. -/
def quick_get_class (api : ApiData) (name : String) : Except String ClassDef :=
  match search_for_class_by_class_name api name with
  | none => .error ("quick_get_class: could not find: " ++ name)
  | some (m, cn) =>
    match get_class api m cn with
    | none => .error ("quick_get_class: could not find: " ++ name)
    | some c => .ok c

/-- The two constructor shapes the pyo3 backend emits for enum variants:
`#[staticmethod]` for payload variants, `#[classattr]` for unit
variants. -/
inductive PyCtorKind where
  | staticmethod
  | classattr
  deriving DecidableEq

/-- The per-variant constructors emitted for one enum wrapper class
(build.py 1548-1583).  Pointer-typed payloads (`continue` at 1557-1558)
and payload classes that are neither enums nor structs (`continue` at
1568) produce no constructor at all. -/
def python_enum_ctors (api : ApiData) :
    List (String × Option String) → Except String (List (String × PyCtorKind))
  | [] => .ok []
  | (vn, none) :: rest =>
    match python_enum_ctors api rest with
    | .error e => .error e
    | .ok l => .ok ((vn, .classattr) :: l)
  | (vn, some ty) :: rest =>
    match analyze_type ty with
    | none => .error "IndexError: list index out of range"
    | some (st, base, _) =>
      if pyLen st > 0 then python_enum_ctors api rest
      else if is_primitive_arg base then
        match python_enum_ctors api rest with
        | .error e => .error e
        | .ok l => .ok ((vn, .staticmethod) :: l)
      else
        match quick_get_class api base with
        | .error e => .error e
        | .ok c =>
          if c.enum_fields.isSome then
            match python_enum_ctors api rest with
            | .error e => .error e
            | .ok l => .ok ((vn, .staticmethod) :: l)
          else if c.struct_fields.isSome then
            match python_enum_ctors api rest with
            | .error e => .error e
            | .ok l => .ok ((vn, .staticmethod) :: l)
          else python_enum_ctors api rest

/-- The payload expression in one arm of the generated `match` method
(build.py 1600-1620). -/
def python_enum_match_arm_value (api : ApiData) (variant_ty : Option String) :
    Except String String :=
  match variant_ty with
  | none => .ok "()"
  | some ty =>
    if ty = "*const c_void" || ty = "*mut c_void" then .ok "()"
    else
      match analyze_type ty with
      | none => .error "IndexError: list index out of range"
      | some (_, base, _) =>
        if !(is_primitive_arg base) then
          match quick_get_class api base with
          | .error e => .error e
          | .ok c =>
            if c.enum_fields.isSome then
              .ok ("\x7b let m: &" ++ azPfx ++ base ++
                "EnumWrapper = unsafe \x7b mem::transmute(v) \x7d; m.clone() \x7d")
            else if class_is_typedef c then .ok "()"
            else if ty = "[PixelValue;2]" then .ok "v.to_vec()"
            else .ok "v.clone()"
        else .ok "v"

/-- The `(variant_name, payload_expression)` arms of the generated
`match` method (build.py 1597-1622): one arm per variant. -/
def python_enum_match_arms (api : ApiData) :
    List (String × Option String) → Except String (List (String × String))
  | [] => .ok []
  | (vn, ty) :: rest =>
    match python_enum_match_arm_value api ty with
    | .error e => .error e
    | .ok value =>
      match python_enum_match_arms api rest with
      | .error e => .error e
      | .ok l => .ok ((vn, value) :: l)

/-- The generated `match` method (build.py 1589-1624): present exactly
when the enum carries a payload variant. -/
def python_enum_match_method (api : ApiData) (variants : List (String × Option String)) :
    Except String (Option (List (String × String))) :=
  if enum_is_union variants then
    match python_enum_match_arms api variants with
    | .error e => .error e
    | .ok arms => .ok (some arms)
  else .ok none

/-- The two pyo3 expressions inside the `vec![...]` literal emitted for
one match arm (build.py 1622): the variant name string and the payload. -/
def render_match_arm_elems (arm : String × String) : List String :=
  ["\"" ++ arm.1 ++ "\".into_py(py)", arm.2 ++ ".into_py(py)"]

/-- Modelled from the spec: claim C9's statement that every variant of a
payload-carrying enum receives a static constructor method. -/
def claimed_ctor_per_variant (ctors : List (String × PyCtorKind))
    (variants : List (String × Option String)) : Bool :=
  variants.all (fun v => decide ((v.1, PyCtorKind.staticmethod) ∈ ctors))

def variantsC9 : List (String × Option String) := [("A", none), ("B", some "*const c_void")]

def apiC9 : ApiData := [("m", [("Y", { enum_fields := some variantsC9 })])]

/-- C9 counterexample: in the payload-carrying enum `Y`, the
pointer-typed variant `B` gets no constructor at all and the unit
variant `A` is emitted as a `#[classattr]`, so the backend does not emit
one static constructor method per variant. -/
theorem C9_counterexample :
    enum_is_union variantsC9 = true ∧
    python_enum_ctors apiC9 variantsC9 = .ok [("A", .classattr)] ∧
    claimed_ctor_per_variant [("A", .classattr)] variantsC9 = false :=
  ⟨by rfl, by rfl, by rfl⟩

theorem python_enum_ctors_mem (api : ApiData) :
    ∀ (variants : List (String × Option String)) (ctors : List (String × PyCtorKind)),
      python_enum_ctors api variants = .ok ctors →
      (∀ vn, (vn, (none : Option String)) ∈ variants → (vn, PyCtorKind.classattr) ∈ ctors) ∧
      (∀ vn ty p b e, (vn, some ty) ∈ variants → analyze_type ty = some (p, b, e) → p = "" →
        is_primitive_arg b = true → (vn, PyCtorKind.staticmethod) ∈ ctors) ∧
      (∀ vn ty p b e c, (vn, some ty) ∈ variants → analyze_type ty = some (p, b, e) → p = "" →
        is_primitive_arg b = false → quick_get_class api b = .ok c →
        (c.enum_fields.isSome || c.struct_fields.isSome) = true →
        (vn, PyCtorKind.staticmethod) ∈ ctors) := by
  intro variants
  induction variants with
  | nil =>
    intro ctors h
    exact ⟨fun vn hv => absurd hv (List.not_mem_nil _),
           fun vn ty p b e hv => absurd hv (List.not_mem_nil _),
           fun vn ty p b e c hv => absurd hv (List.not_mem_nil _)⟩
  | cons w rest ih =>
    intro ctors h
    obtain ⟨wn, wty⟩ := w
    cases wty with
    | none =>
      simp only [python_enum_ctors] at h
      cases hr : python_enum_ctors api rest with
      | error e => rw [hr] at h; exact Except.noConfusion h
      | ok l =>
        rw [hr] at h
        have hct : ctors = (wn, PyCtorKind.classattr) :: l := by
          injection h with h'
          exact h'.symm
        subst hct
        obtain ⟨ih1, ih2, ih3⟩ := ih l hr
        refine ⟨?_, ?_, ?_⟩
        · intro vn hv
          rcases List.mem_cons.mp hv with hh | hh
          · injection hh with h1 _
            subst h1
            exact List.mem_cons_self _ _
          · exact List.mem_cons_of_mem _ (ih1 vn hh)
        · intro vn ty p b e hv han hp hprim
          rcases List.mem_cons.mp hv with hh | hh
          · injection hh with _ h2
            exact Option.noConfusion h2
          · exact List.mem_cons_of_mem _ (ih2 vn ty p b e hh han hp hprim)
        · intro vn ty p b e c hv han hp hprim hq hcls
          rcases List.mem_cons.mp hv with hh | hh
          · injection hh with _ h2
            exact Option.noConfusion h2
          · exact List.mem_cons_of_mem _ (ih3 vn ty p b e c hh han hp hprim hq hcls)
    | some wty2 =>
      cases han0 : analyze_type wty2 with
      | none =>
        simp only [python_enum_ctors, han0] at h
        exact Except.noConfusion h
      | some trip =>
        obtain ⟨st, b0, e0⟩ := trip
        by_cases hlen : pyLen st > 0
        · simp only [python_enum_ctors, han0, hlen, if_true] at h
          obtain ⟨ih1, ih2, ih3⟩ := ih ctors h
          refine ⟨?_, ?_, ?_⟩
          · intro vn hv
            rcases List.mem_cons.mp hv with hh | hh
            · injection hh with _ h2
              exact Option.noConfusion h2
            · exact ih1 vn hh
          · intro vn ty p b e hv han hp hprim
            rcases List.mem_cons.mp hv with hh | hh
            · injection hh with h1 h2
              injection h2 with h2
              subst h2
              rw [han0] at han
              injection han with han
              injection han with ha1 _
              rw [hp] at ha1
              rw [ha1] at hlen
              exact absurd hlen (by decide)
            · exact ih2 vn ty p b e hh han hp hprim
          · intro vn ty p b e c hv han hp hprim hq hcls
            rcases List.mem_cons.mp hv with hh | hh
            · injection hh with h1 h2
              injection h2 with h2
              subst h2
              rw [han0] at han
              injection han with han
              injection han with ha1 _
              rw [hp] at ha1
              rw [ha1] at hlen
              exact absurd hlen (by decide)
            · exact ih3 vn ty p b e c hh han hp hprim hq hcls
        · by_cases hprim0 : is_primitive_arg b0 = true
          · simp only [python_enum_ctors, han0, hlen, if_false, hprim0, if_true] at h
            cases hr : python_enum_ctors api rest with
            | error e => rw [hr] at h; exact Except.noConfusion h
            | ok l =>
              rw [hr] at h
              have hct : ctors = (wn, PyCtorKind.staticmethod) :: l := by
                injection h with h'
                exact h'.symm
              subst hct
              obtain ⟨ih1, ih2, ih3⟩ := ih l hr
              refine ⟨?_, ?_, ?_⟩
              · intro vn hv
                rcases List.mem_cons.mp hv with hh | hh
                · injection hh with _ h2
                  exact Option.noConfusion h2
                · exact List.mem_cons_of_mem _ (ih1 vn hh)
              · intro vn ty p b e hv han hp hprim
                rcases List.mem_cons.mp hv with hh | hh
                · injection hh with h1 _
                  subst h1
                  exact List.mem_cons_self _ _
                · exact List.mem_cons_of_mem _ (ih2 vn ty p b e hh han hp hprim)
              · intro vn ty p b e c hv han hp hprim hq hcls
                rcases List.mem_cons.mp hv with hh | hh
                · injection hh with h1 h2
                  injection h2 with h2
                  subst h2
                  rw [han0] at han
                  injection han with han
                  injection han with _ ha2
                  injection ha2 with ha2 _
                  rw [← ha2] at hprim
                  exact absurd hprim0 (by rw [hprim]; simp)
                · exact List.mem_cons_of_mem _ (ih3 vn ty p b e c hh han hp hprim hq hcls)
          · cases hq0 : quick_get_class api b0 with
            | error e =>
              simp only [python_enum_ctors, han0, hlen, if_false, hprim0, hq0] at h
              exact Except.noConfusion h
            | ok c0 =>
              have hcommon : ∀ (l : List (String × PyCtorKind)),
                  python_enum_ctors api rest = .ok l →
                  ctors = (wn, PyCtorKind.staticmethod) :: l ∨ ctors = l →
                  (∀ vn, (vn, (none : Option String)) ∈ ((wn, some wty2) :: rest) →
                    (vn, PyCtorKind.classattr) ∈ ctors) := by
                intro l hr hct vn hv
                rcases List.mem_cons.mp hv with hh | hh
                · injection hh with _ h2
                  exact Option.noConfusion h2
                · rcases hct with hct | hct
                  · rw [hct]
                    exact List.mem_cons_of_mem _ ((ih l hr).1 vn hh)
                  · rw [hct]
                    exact (ih l hr).1 vn hh
              by_cases henum : c0.enum_fields.isSome = true
              · simp only [python_enum_ctors, han0, hlen, if_false, hprim0, hq0, henum,
                  if_true] at h
                cases hr : python_enum_ctors api rest with
                | error e => rw [hr] at h; exact Except.noConfusion h
                | ok l =>
                  rw [hr] at h
                  have hct : ctors = (wn, PyCtorKind.staticmethod) :: l := by
                    injection h with h'
                    exact h'.symm
                  obtain ⟨ih1, ih2, ih3⟩ := ih l hr
                  refine ⟨hcommon l hr (Or.inl hct), ?_, ?_⟩ <;> subst hct
                  · intro vn ty p b e hv han hp hprim
                    rcases List.mem_cons.mp hv with hh | hh
                    · injection hh with h1 h2
                      injection h2 with h2
                      subst h2
                      rw [han0] at han
                      injection han with han
                      injection han with _ ha2
                      injection ha2 with ha2 _
                      rw [← ha2] at hprim
                      exact absurd hprim (by rw [Bool.not_eq_true] at hprim0; rw [hprim0]; simp)
                    · exact List.mem_cons_of_mem _ (ih2 vn ty p b e hh han hp hprim)
                  · intro vn ty p b e c hv han hp hprim hq hcls
                    rcases List.mem_cons.mp hv with hh | hh
                    · injection hh with h1 _
                      subst h1
                      exact List.mem_cons_self _ _
                    · exact List.mem_cons_of_mem _ (ih3 vn ty p b e c hh han hp hprim hq hcls)
              · by_cases hstructf : c0.struct_fields.isSome = true
                · simp only [python_enum_ctors, han0, hlen, if_false, hprim0, hq0, henum,
                    hstructf, if_true, Bool.false_eq_true] at h
                  cases hr : python_enum_ctors api rest with
                  | error e => rw [hr] at h; exact Except.noConfusion h
                  | ok l =>
                    rw [hr] at h
                    have hct : ctors = (wn, PyCtorKind.staticmethod) :: l := by
                      injection h with h'
                      exact h'.symm
                    obtain ⟨ih1, ih2, ih3⟩ := ih l hr
                    refine ⟨hcommon l hr (Or.inl hct), ?_, ?_⟩ <;> subst hct
                    · intro vn ty p b e hv han hp hprim
                      rcases List.mem_cons.mp hv with hh | hh
                      · injection hh with h1 h2
                        injection h2 with h2
                        subst h2
                        rw [han0] at han
                        injection han with han
                        injection han with _ ha2
                        injection ha2 with ha2 _
                        rw [← ha2] at hprim
                        exact absurd hprim
                          (by rw [Bool.not_eq_true] at hprim0; rw [hprim0]; simp)
                      · exact List.mem_cons_of_mem _ (ih2 vn ty p b e hh han hp hprim)
                    · intro vn ty p b e c hv han hp hprim hq hcls
                      rcases List.mem_cons.mp hv with hh | hh
                      · injection hh with h1 _
                        subst h1
                        exact List.mem_cons_self _ _
                      · exact List.mem_cons_of_mem _
                          (ih3 vn ty p b e c hh han hp hprim hq hcls)
                · simp only [python_enum_ctors, han0, hlen, if_false, hprim0, hq0, henum,
                    hstructf, Bool.false_eq_true] at h
                  obtain ⟨ih1, ih2, ih3⟩ := ih ctors h
                  refine ⟨hcommon ctors h (Or.inr rfl), ?_, ?_⟩
                  · intro vn ty p b e hv han hp hprim
                    rcases List.mem_cons.mp hv with hh | hh
                    · injection hh with h1 h2
                      injection h2 with h2
                      subst h2
                      rw [han0] at han
                      injection han with han
                      injection han with _ ha2
                      injection ha2 with ha2 _
                      rw [← ha2] at hprim
                      exact absurd hprim
                        (by rw [Bool.not_eq_true] at hprim0; rw [hprim0]; simp)
                    · exact ih2 vn ty p b e hh han hp hprim
                  · intro vn ty p b e c hv han hp hprim hq hcls
                    rcases List.mem_cons.mp hv with hh | hh
                    · injection hh with h1 h2
                      injection h2 with h2
                      subst h2
                      rw [han0] at han
                      injection han with han
                      injection han with _ ha2
                      injection ha2 with ha2 _
                      rw [← ha2] at hprim
                      rw [← ha2] at hq
                      rw [hq0] at hq
                      injection hq with hq
                      subst hq
                      rw [Bool.not_eq_true] at henum hstructf
                      rw [henum, hstructf] at hcls
                      exact Bool.noConfusion hcls
                    · exact ih3 vn ty p b e c hh han hp hprim hq hcls

theorem python_enum_match_arms_names (api : ApiData) :
    ∀ (variants : List (String × Option String)) (arms : List (String × String)),
      python_enum_match_arms api variants = .ok arms →
      arms.map Prod.fst = variants.map Prod.fst := by
  intro variants
  induction variants with
  | nil =>
    intro arms h
    simp only [python_enum_match_arms] at h
    cases h
    rfl
  | cons v rest ih =>
    intro arms h
    obtain ⟨vn, ty⟩ := v
    simp only [python_enum_match_arms] at h
    cases hval : python_enum_match_arm_value api ty with
    | error e => rw [hval] at h; exact Except.noConfusion h
    | ok value =>
      rw [hval] at h
      cases hr : python_enum_match_arms api rest with
      | error e => rw [hr] at h; exact Except.noConfusion h
      | ok l =>
        rw [hr] at h
        have harms : arms = (vn, value) :: l := by
          injection h with h'
          exact h'.symm
        subst harms
        simp [ih l hr]

/-- C9 (amended): for every payload-carrying enum, the pyo3 backend
emits, on success, a constructor per variant EXCEPT variants whose
payload is pointer-typed or whose payload class is neither an enum nor
a struct (these are skipped): unit variants as `#[classattr]` members,
primitive- and class-payload variants as `#[staticmethod]`
constructors; and one generic `match` method with one arm per variant,
each arm a two-element list of the variant name string and its payload
expression. -/
theorem C9_python_enum_backend_amended (api : ApiData)
    (variants : List (String × Option String)) (ctors : List (String × PyCtorKind))
    (h : python_enum_ctors api variants = .ok ctors) :
    (∀ vn, (vn, (none : Option String)) ∈ variants → (vn, PyCtorKind.classattr) ∈ ctors) ∧
    (∀ vn ty p b e, (vn, some ty) ∈ variants → analyze_type ty = some (p, b, e) → p = "" →
      is_primitive_arg b = true → (vn, PyCtorKind.staticmethod) ∈ ctors) ∧
    (∀ vn ty p b e c, (vn, some ty) ∈ variants → analyze_type ty = some (p, b, e) → p = "" →
      is_primitive_arg b = false → quick_get_class api b = .ok c →
      (c.enum_fields.isSome || c.struct_fields.isSome) = true →
      (vn, PyCtorKind.staticmethod) ∈ ctors) ∧
    (∀ arms, enum_is_union variants = true →
      python_enum_match_arms api variants = .ok arms →
      python_enum_match_method api variants = .ok (some arms) ∧
        arms.map Prod.fst = variants.map Prod.fst ∧
        ∀ arm ∈ arms, (render_match_arm_elems arm).length = 2) := by
  obtain ⟨h1, h2, h3⟩ := python_enum_ctors_mem api variants ctors h
  refine ⟨h1, h2, h3, ?_⟩
  intro arms hu harms
  refine ⟨?_, python_enum_match_arms_names api variants arms harms, fun arm _ => rfl⟩
  unfold python_enum_match_method
  rw [hu, if_pos rfl, harms]

theorem C9_python_enum_backend_amended_witness :
    ("A", PyCtorKind.classattr) ∈ [("A", PyCtorKind.classattr), ("B", PyCtorKind.staticmethod)] ∧
    ("B", PyCtorKind.staticmethod)
      ∈ [("A", PyCtorKind.classattr), ("B", PyCtorKind.staticmethod)] ∧
    python_enum_match_method [] [("A", none), ("B", some "u8")]
      = .ok (some [("A", "()"), ("B", "v")]) :=
  have hthm := C9_python_enum_backend_amended [] [("A", none), ("B", some "u8")]
    [("A", PyCtorKind.classattr), ("B", PyCtorKind.staticmethod)] (by rfl)
  ⟨hthm.1 "A" (by decide),
   hthm.2.1 "B" "u8" "" "u8" "" (by decide) (by rfl) rfl (by rfl),
   (hthm.2.2.2 [("A", "()"), ("B", "v")] (by rfl) (by rfl)).1⟩

end Build
